import Mathlib

/-!
# Kompose SDK component: validation, exposure resolution, policy synthesis

A shallow embedding of `sdk/kubernetes/kompose.go`.

Conventions of the embedding.

* A Go `error` assembled with `multierr` is the list of the messages it carries; the `nil`
  error is the empty list and `multierr.Append` is concatenation (it flattens its operands).
* A Go `map[string]T` received as input is the list of its entries in the order a `range`
  loop visits them. A map the code builds is an association list whose newest entry for a
  key shadows the older ones, which is what assignment to an existing key does.
* `fmt.Sprintf` with `%d` on an integer is `toString` on `Int`; `%s` is the string itself.
* The values the concurrent checks send on the channel `cerr` are collected in a list; the
  merge loop is a left fold over the arrival order.
* The converter (`app.Convert` behind temporary files) is a function given as a parameter.
* The orchestration engine, and the constants and helpers of the package that `kompose.go`
  uses without declaring them, are the members of `Env`. A Pulumi output is the value it
  resolves to, and the accessors of `PortBindingOutput` read the fields of `PortBinding`
  (`Protocol` with its default, see `PortBinding.protocol`).
  In a callback of `pulumi.All` a value keeps the dynamic type of its output (`GoValue`).
* Code that registers resources is a `Step`: it may end in an error or a panic, and the
  resources registered before that stay in the state.
-/

namespace Kubernetes

/-! ## Errors -/

/-- A Go error as the list of messages it carries; `[]` is `nil`. -/
abbrev Error := List String

/-- The function `multierr.Append`: either side may be `nil`, the result is flattened. -/
def multierrAppend (left right : Error) : Error := left ++ right

/-! ## Data model -/

/-- Modelled from the spec: the type `ExposeType` and its four constants are declared outside
`kompose.go`; the spec gives `exposeType ∈ {Internal, NodePort, LoadBalancer, Ingress}`. -/
inductive ExposeType where
  | ExposeInternal
  | ExposeNodePort
  | ExposeIngress
  | ExposeLoadBalancer
  deriving DecidableEq

open ExposeType

/-- Modelled from the spec: the string value of each `ExposeType` constant, as `%s` prints it.
`NodePort` and `LoadBalancer` are the Service types the transform writes for them, `Internal`
is the zero value the transform calls the "valid default value". -/
def ExposeType.toString : ExposeType → String
  | ExposeInternal => ""
  | ExposeNodePort => "NodePort"
  | ExposeIngress => "Ingress"
  | ExposeLoadBalancer => "LoadBalancer"

/-- The struct `PortBinding`, with the fields `kompose.go` reads. -/
structure PortBinding where
  Port : Int
  Protocol : String
  ExposeType : ExposeType
  Annotations : List (String × String)
  deriving DecidableEq

/-- One entry of `Service.Spec.Ports` of a converted Service (`cv1.ServicePort`). -/
structure ServicePort where
  Port : Int
  Protocol : String
  deriving DecidableEq

/-- A converted `*cv1.Service`: name, label set, ordered port list. -/
structure Service where
  Name : String
  Labels : List (String × String)
  Ports : List ServicePort
  deriving DecidableEq

/-- A converted `*appsv1.Deployment`: the names of `Spec.Template.Spec.ImagePullSecrets`,
`none` for a nil slice. -/
structure Deployment where
  Name : String
  ImagePullSecrets : Option (List String)
  deriving DecidableEq

/-- A `runtime.Object` returned by the converter. -/
inductive RuntimeObject where
  | service (svc : Service)
  | deployment (dep : Deployment)
  | other (kind : String)
  deriving DecidableEq

/-- The struct `KomposeArgsRaw`. -/
structure KomposeArgsRaw where
  Identity : String
  Label : Option String
  Hostname : String
  YAML : String
  Ports : List (String × List PortBinding)
  FromCIDR : String
  IngressNamespace : String
  IngressLabels : List (String × String)
  NamespaceAnnotations : List (String × String)
  ImagePullSecretsNamespace : String
  deriving DecidableEq

/-- The converter `kompose(yaml, namespace)`: the converted objects or an error. -/
abbrev Converter := String → String → Except String (List RuntimeObject)

/-! ## Go maps built by the code -/

/-- Assignment `m[k] = v` on a map built by the code. -/
def mapSet {β : Type} (m : List (String × β)) (k : String) (v : β) : List (String × β) :=
  (k, v) :: m

/-- Lookup `v, ok := m[k]`. -/
def mapGet {β : Type} (m : List (String × β)) (k : String) : Option β :=
  m.lookup k

/-! ## Validation: `Kompose.check` -/

/-- The protocol of a binding or Service port, `"TCP"` when left empty. -/
def protOrTCP (prot : String) : String :=
  if prot = "" then "TCP" else prot

/-- The key `fmt.Sprintf("%d/%s", port, prot)`. -/
def portKey (port : Int) (prot : String) : String :=
  toString port ++ "/" ++ prot

/-- The set `svcs[svc.Name]` filled by the loop over `svc.Spec.Ports`. -/
def serviceKeys (svc : Service) : List String :=
  svc.Ports.foldl (fun keys p => portKey p.Port (protOrTCP p.Protocol) :: keys) []

/-- The map `svcs` of the manifest check: Service name to the set of its port keys. -/
def collectServices (objs : List RuntimeObject) : List (String × List String) :=
  objs.foldl
    (fun svcs obj =>
      match obj with
      | RuntimeObject.service svc => mapSet svcs svc.Name (serviceKeys svc)
      | _ => svcs)
    []

/-- The message for a binding whose key is absent from its Service. -/
def noBindingMsg (svcName pbk : String) : String :=
  "service " ++ svcName ++ " has no port binding for " ++ pbk

/-- The message for a container that has no converted Service. -/
def notFoundMsg (svcName : String) : String :=
  "service " ++ svcName ++ " not found"

/-- The inner loop of "Check ports correspond" over the bindings of one container. -/
def checkBindings (svcName : String) (svc : List String) (pbs : List PortBinding)
    (merr : Error) : Error :=
  pbs.foldl
    (fun merr pb =>
      let pbk := portKey pb.Port (protOrTCP pb.Protocol)
      if pbk ∈ svc then merr else multierrAppend merr [noBindingMsg svcName pbk])
    merr

/-- The loop "Check ports correspond" of the manifest check. -/
def checkPorts (svcs : List (String × List String)) (ports : List (String × List PortBinding)) :
    Error :=
  ports.foldl
    (fun merr entry =>
      match mapGet svcs entry.1 with
      | none => multierrAppend merr [notFoundMsg entry.1]
      | some svc => checkBindings entry.1 svc entry.2 merr)
    []

/-- The third check: the value it sends on `cerr`, and the converter invocations it makes. -/
def checkManifest (kompose : Converter) (args : KomposeArgsRaw) :
    Error × List (String × String) :=
  if args.YAML = "" then
    (["empty YAML is not allowed"], [])
  else
    match kompose args.YAML args.Identity with
    | Except.error err => ([err], [(args.YAML, args.Identity)])
    | Except.ok objs => (checkPorts (collectServices objs) args.Ports, [(args.YAML, args.Identity)])

/-- The first check: the value sent on `cerr`. -/
def checkIdentity (id : String) : Error :=
  if id = "" then ["identity could not be empty"] else []

/-- The second check: the value sent on `cerr`. -/
def checkHostname (hostname : String) : Error :=
  if hostname = "" then ["hostname could not be empty"] else []

/-- The fourth check: the values sent on `cerr` (none when the map has an entry). -/
def checkSomePort (pbm : List (String × List PortBinding)) : List Error :=
  if pbm.length = 0 then [["no port bindings defined"]] else []

/-- The key `fmt.Sprintf("expose %s on %d/%s", p.ExposeType, p.Port, prot)`. -/
def exposeKey (p : PortBinding) : String :=
  "expose " ++ p.ExposeType.toString ++ " on " ++ toString p.Port ++ "/" ++ protOrTCP p.Protocol

/-- The loop over one container of the duplicate check: the seen set `ps` and the slice
`dups`. -/
def scanDups (pbs : List PortBinding) : List String × List String :=
  pbs.foldl
    (fun st p =>
      let k := exposeKey p
      (k :: st.1, if k ∈ st.1 then st.2 ++ [k] else st.2))
    ([], [])

/-- The slice `dups` of a container. -/
def dupsOf (pbs : List PortBinding) : List String := (scanDups pbs).2

/-- The message for a container with duplicated bindings. -/
def dupMsg (name : String) (dups : List String) : String :=
  "container " ++ name ++ " has duplicated ports: " ++ String.intercalate ", " dups

/-- The contribution of one container to the duplicate check. -/
def containerDupError (name : String) (pbs : List PortBinding) : Error :=
  if (dupsOf pbs).length ≠ 0 then [dupMsg name (dupsOf pbs)] else []

/-- The fifth check: the value sent on `cerr`. -/
def checkDuplicates (pbm : List (String × List PortBinding)) : Error :=
  pbm.foldl (fun merr entry => multierrAppend merr (containerDupError entry.1 entry.2)) []

/-- The values the five checks send on `cerr`, listed in source order. -/
def checkSends (kompose : Converter) (args : KomposeArgsRaw) : List Error :=
  [checkIdentity args.Identity, checkHostname args.Hostname, (checkManifest kompose args).1]
    ++ checkSomePort args.Ports ++ [checkDuplicates args.Ports]

/-- The merge loop `for err := range cerr { merr = multierr.Append(merr, err) }`. -/
def mergeErrors (cerr : List Error) : Error :=
  cerr.foldl multierrAppend []

/-- The method `Kompose.check`, the channel read in source order of the checks. -/
def check (kompose : Converter) (args : KomposeArgsRaw) : Error :=
  mergeErrors (checkSends kompose args)

/-- The converter invocations made while `check` runs. -/
def checkInvocations (kompose : Converter) (args : KomposeArgsRaw) : List (String × String) :=
  (checkManifest kompose args).2

/-! ## Cluster resources -/

/-- The type `metav1.LabelSelectorArgs`; an empty selector selects everything. -/
structure LabelSelector where
  MatchLabels : List (String × String)
  deriving DecidableEq

/-- The type `netwv1.IPBlockArgs`. -/
structure IPBlock where
  Cidr : String
  Except : List String
  deriving DecidableEq

/-- The type `netwv1.NetworkPolicyPeerArgs`; an unset member is `none`. -/
structure NetworkPolicyPeer where
  IpBlock : Option IPBlock
  NamespaceSelector : Option LabelSelector
  PodSelector : Option LabelSelector
  deriving DecidableEq

/-- The type `netwv1.NetworkPolicyPortArgs`. -/
structure NetworkPolicyPort where
  Port : Int
  Protocol : String
  deriving DecidableEq

/-- The type `netwv1.NetworkPolicyIngressRuleArgs`. -/
structure NetworkPolicyIngressRule where
  From : List NetworkPolicyPeer
  Ports : List NetworkPolicyPort
  deriving DecidableEq

/-- The type `netwv1.NetworkPolicyEgressRuleArgs`. -/
structure NetworkPolicyEgressRule where
  To : List NetworkPolicyPeer
  Ports : List NetworkPolicyPort
  deriving DecidableEq

/-- The type `netwv1.NetworkPolicySpecArgs`. -/
structure NetworkPolicySpec where
  PodSelector : LabelSelector
  PolicyTypes : List String
  Ingress : List NetworkPolicyIngressRule
  Egress : List NetworkPolicyEgressRule
  deriving DecidableEq

/-- The type `metav1.ObjectMetaArgs`, with the members `kompose.go` sets. -/
structure ObjectMeta where
  Name : Option String
  Namespace : Option String
  Labels : List (String × String)
  Annotations : List (String × String)
  deriving DecidableEq

/-- The type `netwv1.NetworkPolicyArgs`. -/
structure NetworkPolicyArgs where
  Metadata : ObjectMeta
  Spec : NetworkPolicySpec
  deriving DecidableEq

/-- The single rule of `netwv1.IngressSpecArgs` as the code fills it: host, and one path `/`
of type `Prefix` to the backend Service and port. -/
structure IngressSpec where
  Host : Option String
  Path : String
  PathType : String
  ServiceName : String
  ServicePort : Int
  deriving DecidableEq

/-- The type `netwv1.IngressArgs`. -/
structure IngressArgs where
  Metadata : ObjectMeta
  Spec : IngressSpec
  deriving DecidableEq

/-- One port of a Service the cluster accepted; `NodePort` is set once allocated. -/
structure LiveServicePort where
  Port : Int
  Protocol : Option String
  NodePort : Option Int
  deriving DecidableEq

/-- The type `corev1.ServiceSpec` of a Service the cluster accepted. -/
structure ServiceSpec where
  ServiceType : Option String
  Ports : List LiveServicePort
  ExternalIPs : List String
  deriving DecidableEq

/-- A `*corev1.Service` among the resources of the ConfigGroup. -/
structure LiveService where
  Name : String
  Labels : List (String × String)
  Spec : ServiceSpec
  deriving DecidableEq

/-- A child of the ConfigGroup after the resource transforms ran. -/
inductive ChildObject where
  | service (name : String) (specType : Option String) (annotations : List (String × String))
      (svc : Service)
  | deployment (automountServiceAccountToken : Option Bool) (dep : Deployment)
  | other (kind : String)
  deriving DecidableEq

/-- A resource registered with the orchestration engine, under its logical name. -/
inductive Resource where
  | component (typ name : String)
  | ns (logical : String) (metadata : ObjectMeta)
  | networkPolicy (logical : String) (args : NetworkPolicyArgs)
  | secret (logical : String) (sourceID : String) (metadata : ObjectMeta)
  | configGroup (logical : String) (children : List ChildObject)
  | ingress (logical : String) (args : IngressArgs)
  | outputs (urls : List (String × List (String × String)))
  deriving DecidableEq

/-- What the code takes from outside `kompose.go`: the converter, the orchestration engine,
and the constants and helpers declared in other files of the package. -/
structure Env where
  /-- The converter behind `kompose`. -/
  kompose : Converter
  /-- The constant `defaultCIDR`. -/
  defaultCIDR : String
  /-- The helper `randName`, a hash of its seed. -/
  randName : String → String
  /-- The error with which the engine answers the creation of a resource, if any. -/
  reject : Resource → Option String
  /-- Whether `GetSecret` finds the source secret with the given ID. -/
  secretExists : String → Bool
  /-- The Pulumi name under which the ConfigGroup registers a Service. -/
  childName : Service → String
  /-- The Services among `cg.Resources`, as the cluster accepted the children. -/
  cgResources : List ChildObject → List LiveService

/-- How a run of the code ends when it does not return normally. -/
inductive Failure where
  | error (err : Error)
  | panic (msg : String)
  deriving DecidableEq

/-- The struct `Kompose`, with the resources registered with the engine so far. -/
structure Kompose where
  registered : List Resource
  ntps : List NetworkPolicyArgs
  svcs : List (String × List (String × LiveService))
  svcSpecs : List (String × List (String × ServiceSpec))
  ings : List (String × List (String × IngressArgs))
  ingSpecs : List (String × List (String × IngressSpec))
  URLs : List (String × List (String × String))
  deriving DecidableEq

/-- The value `kmp` as `NewKompose` initialises it. -/
def Kompose.init : Kompose :=
  { registered := [], ntps := [], svcs := [], svcSpecs := [], ings := [], ingSpecs := [],
    URLs := [] }

/-- A step of the code: it may fail, and the state survives the failure. -/
abbrev Step (α : Type) := ExceptT Failure (StateM Kompose) α

/-- Creation of a resource (`New...`, `Register...`): an error of the engine is returned,
otherwise the resource is registered. -/
def create (env : Env) (r : Resource) : Step Unit :=
  match env.reject r with
  | some err => throw (Failure.error [err])
  | none => modify (fun kmp => { kmp with registered := kmp.registered ++ [r] })

/-! ## Accessors of `KomposeArgsOutput` and `PortBindingOutput` -/

/-- Modelled from the spec: the accessor `Protocol` of `PortBindingOutput` is declared outside
`kompose.go`; the spec gives a binding the field "protocol (default "TCP")", and the code
passes the value to `defaults(..., "TCP")` and to the rule of the network policy. -/
def PortBinding.protocol (pb : PortBinding) : String :=
  if pb.Protocol = "" then "TCP" else pb.Protocol

/-- The accessor `FromCIDR`. -/
def KomposeArgsRaw.fromCIDR (args : KomposeArgsRaw) (defaultCIDR : String) : String :=
  if args.FromCIDR = "" then defaultCIDR else args.FromCIDR

/-- The accessor `ImagePullSecretsNamespace`. -/
def KomposeArgsRaw.imagePullSecretsNamespace (args : KomposeArgsRaw) : String :=
  if args.ImagePullSecretsNamespace = "" then "default" else args.ImagePullSecretsNamespace

/-- The index `in.Ports().MapIndex(name)`: the bindings of a container, none when absent. -/
def KomposeArgsRaw.portsOf (args : KomposeArgsRaw) (name : String) : List PortBinding :=
  (args.Ports.lookup name).getD []

/-! ## Provisioning: the namespace and its baseline policies -/

/-- The namespace of the deployment. -/
def namespaceMeta (args : KomposeArgsRaw) : ObjectMeta :=
  { Name := some args.Identity, Namespace := none,
    Labels :=
      [("pod-security.kubernetes.io/enforce", "baseline"),
       ("pod-security.kubernetes.io/enforce-version", "latest"),
       ("pod-security.kubernetes.io/warn", "baseline"),
       ("pod-security.kubernetes.io/warn-version", "latest")],
    Annotations := args.NamespaceAnnotations }

/-- Metadata that only places a policy in the namespace of the deployment. -/
def inNamespace (ns : String) : ObjectMeta :=
  { Name := none, Namespace := some ns, Labels := [], Annotations := [] }

/-- A peer that is the namespace `kube-system`. -/
def kubeSystemPeer : NetworkPolicyPeer :=
  { IpBlock := none,
    NamespaceSelector := some { MatchLabels := [("kubernetes.io/metadata.name", "kube-system")] },
    PodSelector := none }

/-- The six baseline policies with their logical names, in creation order. -/
def baselinePolicies (ns : String) : List (String × NetworkPolicyArgs) :=
  [("deny-all",
      { Metadata := inNamespace ns,
        Spec := { PodSelector := { MatchLabels := [] }, PolicyTypes := ["Egress"],
                  Ingress := [], Egress := [] } }),
   ("allow-same-namespace-ingress",
      { Metadata := inNamespace ns,
        Spec := { PodSelector := { MatchLabels := [] }, PolicyTypes := ["Ingress"],
                  Ingress := [{ From := [], Ports := [] }], Egress := [] } }),
   ("allow-same-namespace-egress",
      { Metadata := inNamespace ns,
        Spec := { PodSelector := { MatchLabels := [] }, PolicyTypes := ["Egress"],
                  Ingress := [],
                  Egress := [{ To := [{ IpBlock := none, NamespaceSelector := none,
                                        PodSelector := some { MatchLabels := [] } }],
                               Ports := [] }] } }),
   ("allow-dns-udp",
      { Metadata := inNamespace ns,
        Spec := { PodSelector := { MatchLabels := [] }, PolicyTypes := ["Egress"],
                  Ingress := [],
                  Egress := [{ To := [kubeSystemPeer],
                               Ports := [{ Port := 53, Protocol := "UDP" }] }] } }),
   ("allow-dns-tcp",
      { Metadata := inNamespace ns,
        Spec := { PodSelector := { MatchLabels := [] }, PolicyTypes := ["Egress"],
                  Ingress := [],
                  Egress := [{ To := [kubeSystemPeer],
                               Ports := [{ Port := 53, Protocol := "TCP" }] }] } }),
   ("allow-internet-all",
      { Metadata := inNamespace ns,
        Spec := { PodSelector := { MatchLabels := [] }, PolicyTypes := ["Egress"],
                  Ingress := [],
                  Egress := [{ To := [{ IpBlock := some
                                          { Cidr := "0.0.0.0/0",
                                            Except := ["10.0.0.0/8", "172.16.0.0/12",
                                                       "192.168.0.0/16", "198.18.0.0/15"] },
                                        NamespaceSelector := none, PodSelector := none }],
                               Ports := [] }] } })]

/-- Creation of a list of policies in order, stopping at the first error. -/
def createPolicies (env : Env) : List (String × NetworkPolicyArgs) → Step Unit
  | [] => pure ()
  | (logical, pol) :: rest => do
    create env (Resource.networkPolicy logical pol)
    createPolicies env rest

/-! ## Provisioning: the resource transforms -/

/-- The list `s` without the leading `pre`, none when `s` does not start with `pre`. -/
def dropLeading : List Char → List Char → Option (List Char)
  | s, [] => some s
  | [], _ :: _ => none
  | c :: s, p :: ps => if c = p then dropLeading s ps else none

/-- The function `strings.TrimPrefix`. -/
def trimPrefixOf (s pre : String) : String :=
  match dropLeading s.data pre.data with
  | some rest => String.mk rest
  | none => s

/-- The loop of the Service transform that settles `svcType` from the bindings of the
container, starting from `ExposeInternal`. -/
def serviceTypeOf (pbs : List PortBinding) : ExposeType :=
  pbs.foldl
    (fun svcType pb =>
      if pb.ExposeType ∈ [ExposeNodePort, ExposeLoadBalancer] then pb.ExposeType else svcType)
    ExposeInternal

/-- The annotations of all bindings of a container, copied in declaration order
(`maps.Copy`). -/
def mergedAnnotations (pbs : List PortBinding) : List (String × String) :=
  pbs.foldl (fun out pb => pb.Annotations.foldl (fun out kv => mapSet out kv.1 kv.2) out) []

/-- The properties of a Service the transform writes: `spec.type` and
`metadata.annotations`. -/
structure ServiceProps where
  SpecType : Option String
  Annotations : List (String × String)
  deriving DecidableEq

/-- The transform "Make service NodePorts whenever required"; none for a resource that is
not a Service. -/
def serviceTransform (args : KomposeArgsRaw) (argsType argsName : String)
    (props : ServiceProps) : Option ServiceProps :=
  if argsType = "kubernetes:core/v1:Service" then
    let svcName := trimPrefixOf argsName "kompose:default/"
    match serviceTypeOf (args.portsOf svcName) with
    | ExposeNodePort =>
      some { SpecType := some "NodePort",
             Annotations := mergedAnnotations (args.portsOf svcName) }
    | ExposeLoadBalancer =>
      some { SpecType := some "LoadBalancer",
             Annotations := mergedAnnotations (args.portsOf svcName) }
    | _ => some { props with SpecType := some "" }
  else none

/-- A converted object as the ConfigGroup registers it, the two transforms applied. -/
def transformChild (env : Env) (args : KomposeArgsRaw) (obj : RuntimeObject) : ChildObject :=
  match obj with
  | RuntimeObject.service svc =>
    match serviceTransform args "kubernetes:core/v1:Service" (env.childName svc)
        { SpecType := none, Annotations := [] } with
    | some props => ChildObject.service (env.childName svc) props.SpecType props.Annotations svc
    | none => ChildObject.service (env.childName svc) none [] svc
  | RuntimeObject.deployment dep => ChildObject.deployment (some false) dep
  | RuntimeObject.other kind => ChildObject.other kind

/-! ## Provisioning: image pull secrets -/

/-- The function `extractImagePullSecrets`; the set of names is kept in order of first
occurrence. -/
def extractImagePullSecrets (objs : List RuntimeObject) : List String :=
  objs.foldl
    (fun secretNames obj =>
      match obj with
      | RuntimeObject.deployment dep =>
        match dep.ImagePullSecrets with
        | some secrets =>
          secrets.foldl
            (fun secretNames name =>
              if name ≠ "" then
                (if name ∈ secretNames then secretNames else secretNames ++ [name])
              else secretNames)
            secretNames
        | none => secretNames
      | _ => secretNames)
    []

/-- The loop that copies each secret into the namespace of the deployment; a secret that is
not found in the source namespace is skipped. -/
def copySecrets (env : Env) (args : KomposeArgsRaw) : List String → Step Unit
  | [] => pure ()
  | secretName :: rest => do
    let sourceSecretID := args.imagePullSecretsNamespace ++ "/" ++ secretName
    if env.secretExists sourceSecretID then
      create env (Resource.secret ("secret-" ++ secretName) sourceSecretID
        { Name := some secretName, Namespace := some args.Identity, Labels := [],
          Annotations := [] })
      copySecrets env args rest
    else
      copySecrets env args rest

/-! ## Provisioning: exposure of the bindings -/

/-- Modelled from the spec: the helper `defaults` is declared outside `kompose.go`; the
protocol of a binding defaults to the given value when it is empty. -/
def defaults (v d : String) : String :=
  if v = "" then d else v

/-- The search "Locate corresponding service" over the resources of the ConfigGroup: the last
Service whose name, first port and protocol of the first port equal those of the binding.
Reading `spec.Ports[0]` of a Service without port panics. -/
def locateService (res : List LiveService) (rawName : String) (pb : PortBinding) :
    Except Failure (Option LiveService) :=
  res.foldlM
    (fun svc s =>
      match s.Spec.Ports with
      | [] => Except.error (Failure.panic "index out of range [0] with length 0")
      | p0 :: _ =>
        let svcProt := match p0.Protocol with
          | some prot => prot
          | none => "TCP"
        if s.Name = rawName ∧ p0.Port = pb.Port ∧ svcProt = protOrTCP pb.Protocol then
          Except.ok (some s)
        else Except.ok svc)
    none

/-- The function `strings.ToLower`, on the letters `A` to `Z`. -/
def stringsToLower (s : String) : String :=
  String.mk (s.data.map Char.toLower)

/-- A value of `all []any` in a callback of `pulumi.All(...).ApplyT`: the value the output
resolves to, with the dynamic Go type its accessor gives it. -/
inductive GoValue where
  | str (s : String)
  | strPtr (p : Option String)
  | int (n : Int)
  deriving DecidableEq

/-- The type assertion `lbl, ok := v.(string)`: it holds only for a value whose dynamic type is
`string`. -/
def GoValue.assertString : GoValue → Option String
  | GoValue.str s => some s
  | _ => none

/-- The name given to the network policy of a binding. The accessor `Label` is a
`pulumi.StringPtrOutput`: `label` is the `*string` it resolves to, handed to the callback as
`all[1]` (the Service name, also a `StringPtrOutput`, is unwrapped with `.Elem()` before its
assertion; the label is not). -/
def ntpName (id : String) (label : Option String) (name : String) (port : Int)
    (protocol : String) : String :=
  let prot := stringsToLower (defaults protocol "TCP")
  match (GoValue.strPtr label).assertString with
  | some lbl =>
    if lbl ≠ "" then
      "emp-ntp-" ++ lbl ++ "-" ++ id ++ "-" ++ name ++ "-" ++ toString port ++ "-" ++ prot
    else "emp-ntp-" ++ id ++ "-" ++ name ++ "-" ++ toString port ++ "-" ++ prot
  | none => "emp-ntp-" ++ id ++ "-" ++ name ++ "-" ++ toString port ++ "-" ++ prot

/-- The name given to the Ingress of a binding; `label` as in `ntpName`. -/
def ingName (id : String) (label : Option String) (name : String) : String :=
  match (GoValue.strPtr label).assertString with
  | some lbl =>
    if lbl ≠ "" then "emp-ing-" ++ lbl ++ "-" ++ id ++ "-" ++ name
    else "emp-ing-" ++ id ++ "-" ++ name
  | none => "emp-ing-" ++ id ++ "-" ++ name

/-- The network policy of a binding exposed as NodePort or LoadBalancer; the name and the rule
take the port and the protocol from the accessors `p.Port()` and `p.Protocol()`. -/
def nodePortPolicy (env : Env) (args : KomposeArgsRaw) (name : String) (svc : LiveService)
    (pb : PortBinding) : NetworkPolicyArgs :=
  { Metadata :=
      { Labels := svc.Labels,
        Name := some (ntpName args.Identity args.Label name pb.Port pb.protocol),
        Namespace := some args.Identity, Annotations := [] },
    Spec :=
      { PodSelector := { MatchLabels := svc.Labels },
        PolicyTypes := ["Ingress"],
        Ingress :=
          [{ From := [{ IpBlock := some { Cidr := args.fromCIDR env.defaultCIDR, Except := [] },
                        NamespaceSelector := none, PodSelector := none }],
             Ports := [{ Port := pb.Port, Protocol := pb.protocol }] }],
        Egress := [] } }

/-- The network policy of a binding exposed through an Ingress; the name and the rule take the
port and the protocol from the accessors `p.Port()` and `p.Protocol()`. -/
def ingressPolicy (args : KomposeArgsRaw) (name : String) (svc : LiveService)
    (pb : PortBinding) : NetworkPolicyArgs :=
  { Metadata :=
      { Labels := svc.Labels,
        Name := some (ntpName args.Identity args.Label name pb.Port pb.protocol),
        Namespace := some args.Identity, Annotations := [] },
    Spec :=
      { PodSelector := { MatchLabels := svc.Labels },
        PolicyTypes := ["Ingress"],
        Ingress :=
          [{ From := [{ IpBlock := none,
                        NamespaceSelector := some
                          { MatchLabels :=
                              [("kubernetes.io/metadata.name", args.IngressNamespace)] },
                        PodSelector := some { MatchLabels := args.IngressLabels } }],
             Ports := [{ Port := pb.Port, Protocol := pb.protocol }] }],
        Egress := [] } }

/-- The slug of an Ingress host: `randName(seed)[:len(id)]`, a panic when the hash is
shorter than the identity. Lengths are byte lengths; the slice is exact for an ASCII hash. -/
def ingressSlug (env : Env) (id name : String) (pb : PortBinding) : Except Failure String :=
  let seed := id ++ "-" ++ name ++ "-" ++ toString pb.Port ++ "/" ++ protOrTCP pb.Protocol
  if id.utf8ByteSize ≤ (env.randName seed).utf8ByteSize then
    Except.ok (String.mk ((env.randName seed).data.take id.utf8ByteSize))
  else Except.error (Failure.panic "slice bounds out of range")

/-- The Ingress of a binding, for a given slug. -/
def ingressArgs (args : KomposeArgsRaw) (name : String) (svc : LiveService)
    (pb : PortBinding) (slug : String) : IngressArgs :=
  { Metadata :=
      { Annotations :=
          if pb.ExposeType ∈ [ExposeNodePort, ExposeLoadBalancer] then pb.Annotations else [],
        Labels := svc.Labels,
        Name := some (ingName args.Identity args.Label name),
        Namespace := some args.Identity },
    Spec :=
      { Host := some (slug ++ "." ++ args.Hostname), Path := "/", PathType := "Prefix",
        ServiceName := name, ServicePort := pb.Port } }

/-- The four maps the loop over the bindings of one container fills. -/
structure Correlation where
  svcs : List (String × LiveService)
  svcSpecs : List (String × ServiceSpec)
  ings : List (String × IngressArgs)
  ingSpecs : List (String × IngressSpec)
  deriving DecidableEq

/-- The body of the loop over the bindings: binding `j` of container `i`. A binding for which
no Service is located is skipped. -/
def exposeBinding (env : Env) (args : KomposeArgsRaw) (res : List LiveService) (i : Nat)
    (rawName : String) (j : Nat) (pb : PortBinding) (loc : Correlation) : Step Correlation := do
  match locateService res rawName pb with
  | Except.error failure => throw failure
  | Except.ok none => pure loc
  | Except.ok (some svc) =>
    let key := portKey pb.Port (protOrTCP pb.Protocol)
    let loc := { loc with svcs := mapSet loc.svcs key svc,
                          svcSpecs := mapSet loc.svcSpecs key svc.Spec }
    let loc ← (match pb.ExposeType with
      | ExposeLoadBalancer => do
        create env (Resource.networkPolicy ("emp-ntp-" ++ rawName ++ "-" ++ toString i)
          (nodePortPolicy env args rawName svc pb))
        modify (fun kmp => { kmp with ntps := kmp.ntps ++ [nodePortPolicy env args rawName svc pb] })
        pure loc
      | ExposeNodePort => do
        create env (Resource.networkPolicy ("emp-ntp-" ++ rawName ++ "-" ++ toString i)
          (nodePortPolicy env args rawName svc pb))
        modify (fun kmp => { kmp with ntps := kmp.ntps ++ [nodePortPolicy env args rawName svc pb] })
        pure loc
      | ExposeIngress => do
        match ingressSlug env args.Identity rawName pb with
        | Except.error failure => throw failure
        | Except.ok slug =>
          let ing := ingressArgs args rawName svc pb slug
          create env (Resource.ingress ("kmp-ing-" ++ rawName ++ "-" ++ toString j) ing)
          let loc := { loc with ings := mapSet loc.ings key ing,
                                ingSpecs := mapSet loc.ingSpecs key ing.Spec }
          create env (Resource.networkPolicy ("emp-ntp-" ++ rawName ++ "-" ++ toString i)
            (ingressPolicy args rawName svc pb))
          modify (fun kmp => { kmp with ntps := kmp.ntps ++ [ingressPolicy args rawName svc pb] })
          pure loc
      | ExposeInternal => pure loc : Step Correlation)
    modify (fun kmp =>
      { kmp with svcs := mapSet kmp.svcs rawName loc.svcs,
                 svcSpecs := mapSet kmp.svcSpecs rawName loc.svcSpecs,
                 ings := mapSet kmp.ings rawName loc.ings,
                 ingSpecs := mapSet kmp.ingSpecs rawName loc.ingSpecs })
    pure loc

/-- The loop `for j := 0; j < pbs.Len(); j++` from index `j` on. -/
def exposeBindings (env : Env) (args : KomposeArgsRaw) (res : List LiveService) (i : Nat)
    (rawName : String) : Nat → List PortBinding → Correlation → Step Unit
  | _, [], _ => pure ()
  | j, pb :: rest, loc => do
    let loc ← exposeBinding env args res i rawName j pb loc
    exposeBindings env args res i rawName (j + 1) rest loc

/-- The loop `for i := 0; i < lenP(keys); i++` from index `i` on; the bindings of a key are
read with `in.Ports().MapIndex(name)`. -/
def exposeContainers (env : Env) (args : KomposeArgsRaw) (res : List LiveService) :
    Nat → List String → Step Unit
  | _, [] => pure ()
  | i, name :: rest => do
    exposeBindings env args res i name 0 (args.portsOf name)
      { svcs := [], svcSpecs := [], ings := [], ingSpecs := [] }
    exposeContainers env args res (i + 1) rest

/-- The method `Kompose.provision`. -/
def provision (env : Env) (args : KomposeArgsRaw) : Step Unit := do
  create env (Resource.ns "ns" (namespaceMeta args))
  createPolicies env (baselinePolicies args.Identity)
  match env.kompose args.YAML args.Identity with
  | Except.error err => throw (Failure.error [err])
  | Except.ok objs =>
    copySecrets env args (extractImagePullSecrets objs)
    match env.kompose args.YAML args.Identity with
    | Except.error err => throw (Failure.panic err)
    | Except.ok objs =>
      let children := objs.map (transformChild env args)
      create env (Resource.configGroup "kompose" children)
      exposeContainers env args (env.cgResources children) 0 (args.Ports.map (fun e => e.1))

/-! ## Endpoints: `Kompose.outputs` -/

/-- The entries a `range` loop visits on a map the code built: one per key, the newest. -/
def mapEntries {β : Type} : List (String × β) → List (String × β)
  | [] => []
  | e :: rest => e :: (mapEntries rest).filter (fun x => x.1 != e.1)

/-- The endpoints of the Services of one container. -/
def svcUrls (hostname : String) (specs : List (String × ServiceSpec)) :
    Except Failure (List (String × String)) :=
  (mapEntries specs).foldlM
    (fun urls entry =>
      match entry.2.ServiceType with
      | none => Except.ok urls
      | some typ =>
        if typ = "NodePort" then
          match entry.2.Ports with
          | [] => Except.error (Failure.panic "index out of range [0] with length 0")
          | p0 :: _ =>
            match p0.NodePort with
            | some np => Except.ok (mapSet urls entry.1 (hostname ++ ":" ++ toString np))
            | none => Except.ok urls
        else if typ = "LoadBalancer" then
          match entry.2.Ports with
          | [] => Except.error (Failure.panic "index out of range [0] with length 0")
          | p0 :: _ =>
            match p0.NodePort with
            | none => Except.ok urls
            | some np =>
              match entry.2.ExternalIPs with
              | [] => Except.error (Failure.panic "index out of range [0] with length 0")
              | ip :: _ => Except.ok (mapSet urls entry.1 (ip ++ ":" ++ toString np))
        else Except.ok urls)
    []

/-- The endpoints of the Ingresses of one container. -/
def ingUrls (specs : List (String × IngressSpec)) : List (String × String) :=
  (mapEntries specs).foldl
    (fun urls entry =>
      match entry.2.Host with
      | some h => mapSet urls entry.1 h
      | none => urls)
    []

/-- Modelled from the spec: the helper `merge` is declared outside `kompose.go`; the two maps
are merged, "with Ingress taking precedence on key collision". -/
def merge (svcUrls ingUrls : List (String × String)) : List (String × String) :=
  ingUrls ++ svcUrls

/-- The loop of `outputs` over the keys of `kmp.svcs`. -/
def outputUrls (args : KomposeArgsRaw) : List String → Step Unit
  | [] => pure ()
  | name :: rest => do
    let kmp ← get
    match svcUrls args.Hostname ((mapGet kmp.svcSpecs name).getD []) with
    | Except.error failure => throw failure
    | Except.ok urls =>
      let merged := merge urls (ingUrls ((mapGet kmp.ingSpecs name).getD []))
      modify (fun kmp => { kmp with URLs := mapSet kmp.URLs name merged })
      outputUrls args rest

/-- The method `Kompose.outputs`. -/
def outputs (env : Env) (args : KomposeArgsRaw) : Step Unit := do
  let kmp ← get
  outputUrls args ((mapEntries kmp.svcs).map (fun e => e.1))
  let kmp ← get
  create env (Resource.outputs kmp.URLs)

/-! ## The constructor `NewKompose` -/

/-- The function `NewKompose`; `none` stands for nil args. -/
def NewKompose (env : Env) (name : String) (args : Option KomposeArgsRaw) : Step Unit :=
  match args with
  | none => throw (Failure.error ["nil args"])
  | some input =>
    match check env.kompose input with
    | [] => do
      create env (Resource.component "ctfer-io:chall-manager/sdk:kubernetes.Kompose" name)
      provision env input
      outputs env input
    | err :: errs => throw (Failure.error (err :: errs))

/-- A run of `NewKompose` from the initial `kmp`: what it returns, and the final state with
the resources registered on the way. -/
def runNewKompose (env : Env) (name : String) (args : Option KomposeArgsRaw) :
    Except Failure Unit × Kompose :=
  (NewKompose env name args).run.run Kompose.init

/-! ## Specification-side notions -/

/-- The converted Services of an object list, in conversion order. -/
def servicesOf (objs : List RuntimeObject) : List Service :=
  objs.filterMap
    (fun obj =>
      match obj with
      | RuntimeObject.service svc => some svc
      | _ => none)

/-- The converted Service named `name`; the last one converted when several carry the name. -/
def serviceNamed (objs : List RuntimeObject) (name : String) : Option Service :=
  (servicesOf objs).reverse.find? (fun svc => name == svc.Name)

/-- A binding matches a Service: the Service lists its port and protocol, an empty protocol
read as `"TCP"` on both sides. -/
def bindingMatches (svc : Service) (pb : PortBinding) : Prop :=
  ∃ sp ∈ svc.Ports, sp.Port = pb.Port ∧ protOrTCP sp.Protocol = protOrTCP pb.Protocol

/-- The triple `(exposeType, port, protocol)` of a binding, an empty protocol read as `"TCP"`. -/
def tripleOf (pb : PortBinding) : ExposeType × Int × String :=
  (pb.ExposeType, pb.Port, protOrTCP pb.Protocol)

/-- Two bindings at different positions of the list carry the same triple. -/
def hasDuplicate (pbs : List PortBinding) : Prop :=
  ∃ i j : Nat, i < j ∧ ∃ p q : PortBinding,
    pbs[i]? = some p ∧ pbs[j]? = some q ∧ tripleOf p = tripleOf q

/-- Two bindings at different positions carry the same `(port, protocol)` pair. -/
def hasDuplicatePort (pbs : List PortBinding) : Prop :=
  ∃ i j : Nat, i < j ∧ ∃ p q : PortBinding,
    pbs[i]? = some p ∧ pbs[j]? = some q ∧
      p.Port = q.Port ∧ protOrTCP p.Protocol = protOrTCP q.Protocol

/-- A binding that re-types the Service: its exposure type is NodePort or LoadBalancer. -/
def retypes (pb : PortBinding) : Prop :=
  pb.ExposeType = ExposeNodePort ∨ pb.ExposeType = ExposeLoadBalancer

/-! ## Notions used by the proofs -/

/-- The ten decimal digit characters. -/
def decimalChars : List Char := ['0', '1', '2', '3', '4', '5', '6', '7', '8', '9']

/-- The errors one binding adds in "Check ports correspond". -/
def bindingErrors (svcName : String) (svc : List String) (pb : PortBinding) : Error :=
  if portKey pb.Port (protOrTCP pb.Protocol) ∈ svc then []
  else [noBindingMsg svcName (portKey pb.Port (protOrTCP pb.Protocol))]

/-- The errors one container adds in "Check ports correspond". -/
def entryErrors (svcs : List (String × List String)) (entry : String × List PortBinding) :
    Error :=
  match mapGet svcs entry.1 with
  | none => [notFoundMsg entry.1]
  | some svc => entry.2.flatMap (bindingErrors entry.1 svc)

/-! ## Sample inputs (the manifest of the unit tests) -/

/-- The Service converted for container `node` of the test manifest: port 3000/TCP. -/
def nodeService : Service :=
  { Name := "node", Labels := [("io.kompose.service", "node")],
    Ports := [{ Port := 3000, Protocol := "TCP" }] }

/-- The Service converted for container `mongo` of the test manifest: port 27017/TCP. -/
def mongoService : Service :=
  { Name := "mongo", Labels := [("io.kompose.service", "mongo")],
    Ports := [{ Port := 27017, Protocol := "TCP" }] }

/-- The objects converted from the test manifest `dcVipOnly`. -/
def vipOnlyObjects : List RuntimeObject :=
  [RuntimeObject.service nodeService, RuntimeObject.service mongoService,
    RuntimeObject.deployment { Name := "node", ImagePullSecrets := none },
    RuntimeObject.deployment { Name := "mongo", ImagePullSecrets := none }]

/-- A converter that yields the objects of the test manifest. -/
def vipOnlyConverter : Converter := fun _ _ => Except.ok vipOnlyObjects

/-- The arguments of the unit tests, for a given port-binding map. -/
def vipOnlyArgs (ports : List (String × List PortBinding)) : KomposeArgsRaw :=
  { Identity := "a0b1c2d3", Label := none, Hostname := "24hiut25.ctfer.io",
    YAML := "services: node, mongo", Ports := ports, FromCIDR := "",
    IngressNamespace := "", IngressLabels := [], NamespaceAnnotations := [],
    ImagePullSecretsNamespace := "" }

/-- A binding with only port and exposure type set, as the tests declare them. -/
def binding (port : Int) (exposeType : ExposeType) : PortBinding :=
  { Port := port, Protocol := "", ExposeType := exposeType, Annotations := [] }

/-- The Service of a child as the cluster accepts it: node port 30000 plus the port number is
allocated to a Service of type NodePort or LoadBalancer, and a LoadBalancer gets one external
address. -/
def acceptService (child : ChildObject) : Option LiveService :=
  match child with
  | ChildObject.service _ specType _ svc =>
    let exposed := decide (specType = some "NodePort" ∨ specType = some "LoadBalancer")
    some
      { Name := svc.Name, Labels := svc.Labels,
        Spec :=
          { ServiceType := specType,
            Ports := svc.Ports.map (fun p =>
              { Port := p.Port,
                Protocol := if p.Protocol = "" then none else some p.Protocol,
                NodePort := if exposed then some (30000 + p.Port) else none }),
            ExternalIPs := if specType = some "LoadBalancer" then ["203.0.113.10"] else [] } }
  | _ => none

/-- An environment like the mocks of the unit tests: the converter yields the test manifest,
the engine accepts every resource, finds no source secret, the ConfigGroup names the child of a
Service `kompose:default/<name>` (the name whose leading part the Service transform trims) and
exposes no resource. -/
def mockEnv : Env :=
  { kompose := vipOnlyConverter, defaultCIDR := "0.0.0.0/0",
    randName := fun seed => seed ++ "0123456789abcdef0123456789abcdef01234567",
    reject := fun _ => none, secretExists := fun _ => false,
    childName := fun svc => "kompose:default/" ++ svc.Name,
    cgResources := fun _ => [] }

/-- An environment like a cluster: as `mockEnv`, and the ConfigGroup exposes the Services
the cluster accepted. -/
def clusterEnv : Env :=
  { mockEnv with cgResources := fun children => children.filterMap acceptService }

/-! ## Notions for names, correlation and endpoints -/

/-- The protocol segment of a policy name: the protocol, `"TCP"` when empty, lower-cased. -/
def lowerProt (protocol : String) : String :=
  stringsToLower (defaults protocol "TCP")

/-- A Service among the resources of the ConfigGroup carries the name of the container and,
at some position of its port list, the port and protocol of the binding (protocol `"TCP"` when
unset on either side). -/
def liveMatches (s : LiveService) (rawName : String) (pb : PortBinding) : Prop :=
  s.Name = rawName ∧ ∃ p ∈ s.Spec.Ports, p.Port = pb.Port ∧
    (match p.Protocol with
      | some prot => prot
      | none => "TCP") = protOrTCP pb.Protocol

/-- The endpoint `svcUrls` computes for one Service spec: none when nothing is surfaced. -/
def svcUrlOf (hostname : String) (spec : ServiceSpec) : Except Failure (Option String) :=
  match spec.ServiceType with
  | none => Except.ok none
  | some typ =>
    if typ = "NodePort" then
      match spec.Ports with
      | [] => Except.error (Failure.panic "index out of range [0] with length 0")
      | p0 :: _ =>
        match p0.NodePort with
        | some np => Except.ok (some (hostname ++ ":" ++ toString np))
        | none => Except.ok none
    else if typ = "LoadBalancer" then
      match spec.Ports with
      | [] => Except.error (Failure.panic "index out of range [0] with length 0")
      | p0 :: _ =>
        match p0.NodePort with
        | none => Except.ok none
        | some np =>
          match spec.ExternalIPs with
          | [] => Except.error (Failure.panic "index out of range [0] with length 0")
          | ip :: _ => Except.ok (some (ip ++ ":" ++ toString np))
    else Except.ok none

/-- The step of the loop of `svcUrls`, written with `svcUrlOf`. -/
def svcUrlStep (hostname : String) (urls : List (String × String))
    (entry : String × ServiceSpec) : Except Failure (List (String × String)) :=
  match svcUrlOf hostname entry.2 with
  | Except.error failure => Except.error failure
  | Except.ok none => Except.ok urls
  | Except.ok (some url) => Except.ok (mapSet urls entry.1 url)

/-- The names one Deployment adds to the set of `extractImagePullSecrets`. -/
def addSecrets (secretNames secrets : List String) : List String :=
  secrets.foldl
    (fun secretNames name =>
      if name ≠ "" then
        (if name ∈ secretNames then secretNames else secretNames ++ [name])
      else secretNames)
    secretNames

/-! ## Sample inputs for exposure and endpoints -/

/-- Modelled from the spec: the helper `randName` is declared outside `kompose.go`; the spec
has the slug "derived by hashing" the seed. A stand-in digest of 40 hexadecimal characters, the
length of a hex-encoded SHA-1, computed from the seed. -/
def digest40 (seed : String) : String :=
  String.mk ((List.range 40).map (fun i =>
    Nat.digitChar ((seed.data.foldl (fun h c => (h * 31 + c.toNat) % 65521) (i + 7)) % 16)))

/-- An environment like `clusterEnv` whose hash is the digest of 40 characters. -/
def digestEnv : Env :=
  { clusterEnv with randName := digest40 }

/-- An identity of 41 characters. -/
def longIdentity : String := "a0b1c2d3e4f5a0b1c2d3e4f5a0b1c2d3e4f5a0b1c"

/-- A Service with two ports, 80/TCP then 443/TCP, as the converter makes one Service per
container for all its ports. -/
def webService : Service :=
  { Name := "web", Labels := [("io.kompose.service", "web")],
    Ports := [{ Port := 80, Protocol := "TCP" }, { Port := 443, Protocol := "TCP" }] }

/-- The objects converted from a manifest with the single container `web` on ports 80 and
443. -/
def webObjects : List RuntimeObject :=
  [RuntimeObject.service webService,
    RuntimeObject.deployment { Name := "web", ImagePullSecrets := some ["regcred", "", "regcred"] }]

/-- An environment like `clusterEnv` for the manifest of `web`. -/
def webEnv : Env :=
  { clusterEnv with kompose := fun _ _ => Except.ok webObjects }

/-- The arguments for the manifest of `web`, for a given port-binding map. -/
def webArgs (ports : List (String × List PortBinding)) : KomposeArgsRaw :=
  { vipOnlyArgs ports with YAML := "services: web" }

/-- The spec of a LoadBalancer Service whose node port 33000 is allocated and whose list of
external addresses is still empty. -/
def pendingLoadBalancer : ServiceSpec :=
  { ServiceType := some "LoadBalancer",
    Ports := [{ Port := 3000, Protocol := some "TCP", NodePort := some 33000 }],
    ExternalIPs := [] }

/-- An environment like `clusterEnv` in which no Service has an external address. -/
def noExternalIPEnv : Env :=
  { clusterEnv with
    cgResources := fun children =>
      (children.filterMap acceptService).map
        (fun s => { s with Spec := { s.Spec with ExternalIPs := [] } }) }

/-! ## Notions for the registered resources -/

/-- The logical names under which network policies were registered, in order. -/
def policyLogicalNames (rs : List Resource) : List String :=
  rs.filterMap
    (fun r =>
      match r with
      | Resource.networkPolicy logical _ => some logical
      | _ => none)

/-- A step only adds to the list of registered resources. -/
def appendsOnly {α : Type} (x : Step α) : Prop :=
  ∀ kmp, ∃ rest, (x.run.run kmp).2.registered = kmp.registered ++ rest

/-- The cluster did not expose the Service: its type is neither NodePort nor LoadBalancer. -/
def notExposed (spec : ServiceSpec) : Prop :=
  spec.ServiceType ≠ some "NodePort" ∧ spec.ServiceType ≠ some "LoadBalancer"

/-- The maps of a container before its first binding is handled. -/
def Correlation.empty : Correlation :=
  { svcs := [], svcSpecs := [], ings := [], ingSpecs := [] }

/-! ## Sample inputs for the name of a child and the name of an Ingress -/

/-- An environment like `clusterEnv` in which the ConfigGroup names the child of a Service after
the namespace of the object, `kompose:<namespace>/<name>`: `provision` sets the namespace of
every converted object to the identity before the manifest reaches the ConfigGroup. -/
def namespacedEnv (identity : String) : Env :=
  { clusterEnv with childName := fun svc => "kompose:" ++ identity ++ "/" ++ svc.Name }

/-- The names (`metadata.name`) of the Ingress objects registered, in order. -/
def ingressObjectNames (rs : List Resource) : List (Option String) :=
  rs.filterMap
    (fun r =>
      match r with
      | Resource.ingress _ ing => some ing.Metadata.Name
      | _ => none)

/-- The objects converted from a manifest with the single container `name` on one TCP port. -/
def singleObjects (name : String) (port : Int) : List RuntimeObject :=
  [RuntimeObject.service
      { Name := name, Labels := [("io.kompose.service", name)],
        Ports := [{ Port := port, Protocol := "TCP" }] },
    RuntimeObject.deployment { Name := name, ImagePullSecrets := none }]

/-- An environment like `clusterEnv` for the manifest of the single container `name`. -/
def singleEnv (name : String) (port : Int) : Env :=
  { clusterEnv with kompose := fun _ _ => Except.ok (singleObjects name port) }

/-- The arguments of a deployment `identity` of the single container `name`, bound on its port
through an Ingress. -/
def singleArgs (identity name : String) (port : Int) : KomposeArgsRaw :=
  { vipOnlyArgs [(name, [binding port ExposeIngress])] with
    Identity := identity, YAML := "services: " ++ name }

/-! ## Decimal rendering of integers -/

theorem toDigitsCore_append (f : Nat) : ∀ (n : Nat) (ds : List Char),
    Nat.toDigitsCore 10 f n ds = Nat.toDigitsCore 10 f n [] ++ ds := by
  induction f with
  | zero => intro n ds; simp [Nat.toDigitsCore]
  | succ f ih =>
    intro n ds
    simp only [Nat.toDigitsCore]
    split
    · simp
    · rw [ih (n / 10) ((n % 10).digitChar :: ds), ih (n / 10) [(n % 10).digitChar]]
      simp

theorem toDigitsCore_fuel (f1 : Nat) : ∀ (f2 n : Nat), n < f1 → n < f2 →
    Nat.toDigitsCore 10 f1 n [] = Nat.toDigitsCore 10 f2 n [] := by
  induction f1 with
  | zero => intro f2 n h; omega
  | succ f1 ih =>
    intro f2 n h1 h2
    cases f2 with
    | zero => omega
    | succ f2 =>
      simp only [Nat.toDigitsCore]
      split
      · rfl
      · rename_i hne
        rw [toDigitsCore_append f1, toDigitsCore_append f2,
          ih f2 (n / 10) (by omega) (by omega)]

theorem toDigits_rec (n : Nat) :
    Nat.toDigits 10 n =
      if n / 10 = 0 then [(n % 10).digitChar]
      else Nat.toDigits 10 (n / 10) ++ [(n % 10).digitChar] := by
  have h : Nat.toDigits 10 n = Nat.toDigitsCore 10 (n + 1) n [] := rfl
  rw [h]
  conv_lhs => unfold Nat.toDigitsCore
  simp only
  split
  · rfl
  · rw [toDigitsCore_append n, toDigitsCore_fuel n (n / 10 + 1) (n / 10) (by omega) (by omega)]
    rfl

theorem toDigits_ne_nil (n : Nat) : Nat.toDigits 10 n ≠ [] := by
  rw [toDigits_rec]; split <;> simp

theorem digitChar_inj {a b : Nat} (ha : a < 10) (hb : b < 10)
    (h : a.digitChar = b.digitChar) : a = b := by
  interval_cases a <;> interval_cases b <;> first | rfl | (exfalso; revert h; decide)

theorem digitChar_mem {a : Nat} (ha : a < 10) : a.digitChar ∈ decimalChars := by
  interval_cases a <;> decide

theorem toDigits_mem (n : Nat) : ∀ c ∈ Nat.toDigits 10 n, c ∈ decimalChars := by
  induction n using Nat.strong_induction_on with
  | _ n ih =>
    intro c hc
    rw [toDigits_rec] at hc
    split at hc
    · simp only [List.mem_singleton] at hc
      subst hc; exact digitChar_mem (Nat.mod_lt _ (by decide))
    · rename_i hne
      rcases List.mem_append.mp hc with h | h
      · exact ih (n / 10) (by omega) c h
      · simp only [List.mem_singleton] at h
        subst h; exact digitChar_mem (Nat.mod_lt _ (by decide))

theorem toDigits_inj : ∀ (n m : Nat), Nat.toDigits 10 n = Nat.toDigits 10 m → n = m := by
  intro n
  induction n using Nat.strong_induction_on with
  | _ n ih =>
    intro m h
    rw [toDigits_rec n, toDigits_rec m] at h
    have hn := Nat.mod_lt n (show 0 < 10 by decide)
    have hm := Nat.mod_lt m (show 0 < 10 by decide)
    split at h <;> split at h
    · rename_i h1 h2
      have := digitChar_inj hn hm (by simpa using h)
      omega
    · rename_i h1 h2
      exfalso
      have hl := congrArg List.length h
      have := toDigits_ne_nil (m / 10)
      have : 0 < (Nat.toDigits 10 (m / 10)).length := List.length_pos.mpr this
      simp only [List.length_append, List.length_singleton, List.length_cons, List.length_nil] at hl; omega
    · rename_i h1 h2
      exfalso
      have hl := congrArg List.length h
      have := toDigits_ne_nil (n / 10)
      have : 0 < (Nat.toDigits 10 (n / 10)).length := List.length_pos.mpr this
      simp only [List.length_append, List.length_singleton, List.length_cons, List.length_nil] at hl; omega
    · rename_i h1 h2
      have h' := List.append_inj' h rfl
      have e1 := ih (n / 10) (by omega) (m / 10) h'.1
      have e2 := digitChar_inj hn hm (by simpa using h'.2)
      omega

/-- The characters `%d` prints for an integer. -/
theorem toString_int_data (i : Int) :
    (toString i).data =
      match i with
      | Int.ofNat m => Nat.toDigits 10 m
      | Int.negSucc m => '-' :: Nat.toDigits 10 (m + 1) := by
  cases i <;> rfl

theorem slash_not_mem_int (i : Int) : '/' ∉ (toString i).data := by
  rw [toString_int_data]
  cases i with
  | ofNat m =>
    intro h
    have := toDigits_mem m _ h
    revert this; decide
  | negSucc m =>
    intro h
    simp only [List.mem_cons] at h
    rcases h with h | h
    · revert h; decide
    · have := toDigits_mem _ _ h
      revert this; decide

theorem toString_int_inj {i j : Int} (h : toString i = toString j) : i = j := by
  have h' : (toString i).data = (toString j).data := by rw [h]
  rw [toString_int_data, toString_int_data] at h'
  cases i with
  | ofNat m =>
    cases j with
    | ofNat k => simp only at h'; rw [toDigits_inj m k h']
    | negSucc k =>
      exfalso
      simp only at h'
      have hm : '-' ∈ Nat.toDigits 10 m := by rw [h']; simp
      have := toDigits_mem m _ hm
      revert this; decide
  | negSucc m =>
    cases j with
    | ofNat k =>
      exfalso
      simp only at h'
      have hm : '-' ∈ Nat.toDigits 10 k := by rw [← h']; simp
      have := toDigits_mem k _ hm
      revert this; decide
    | negSucc k =>
      simp only [List.cons.injEq, true_and] at h'
      have := toDigits_inj _ _ h'
      have : m = k := by omega
      rw [this]

theorem append_sep_inj {α : Type} {a : α} : ∀ {l1 l2 r1 r2 : List α}, a ∉ l1 → a ∉ l2 →
    l1 ++ a :: r1 = l2 ++ a :: r2 → l1 = l2 ∧ r1 = r2 := by
  intro l1
  induction l1 with
  | nil =>
    intro l2 r1 r2 _ h2 h
    cases l2 with
    | nil => simpa using h
    | cons b l2 =>
      exfalso
      simp only [List.nil_append, List.cons_append, List.cons.injEq] at h
      exact h2 (by rw [h.1]; simp)
  | cons b l1 ih =>
    intro l2 r1 r2 h1 h2 h
    cases l2 with
    | nil =>
      exfalso
      simp only [List.nil_append, List.cons_append, List.cons.injEq] at h
      exact h1 (by rw [← h.1]; simp)
    | cons c l2 =>
      simp only [List.cons_append, List.cons.injEq] at h
      have := ih (fun hm => h1 (List.mem_cons_of_mem _ hm)) (fun hm => h2 (List.mem_cons_of_mem _ hm)) h.2
      exact ⟨by rw [h.1, this.1], this.2⟩

/-! ## Keys -/

theorem portKey_inj {p q : Int} {s t : String} (h : portKey p s = portKey q t) :
    p = q ∧ s = t := by
  have h' : (portKey p s).data = (portKey q t).data := by rw [h]
  simp only [portKey, String.data_append] at h'
  rw [List.append_assoc, List.append_assoc] at h'
  have := append_sep_inj (slash_not_mem_int p) (slash_not_mem_int q) h'
  exact ⟨toString_int_inj (String.ext this.1), String.ext this.2⟩

theorem exposeType_lead_inj {a b : ExposeType} {r s : List Char}
    (h : a.toString.data ++ (' ' :: r) = b.toString.data ++ (' ' :: s)) : a = b ∧ r = s := by
  cases a <;> cases b <;>
    first
    | (simp only [ExposeType.toString] at h
       exact ⟨rfl, by simpa using h⟩)
    | (exfalso; simp [ExposeType.toString] at h)

theorem exposeKey_inj {p q : PortBinding} (h : exposeKey p = exposeKey q) :
    tripleOf p = tripleOf q := by
  have h' : (exposeKey p).data = (exposeKey q).data := by rw [h]
  simp only [exposeKey, String.data_append] at h'
  simp only [List.append_assoc, List.cons_append, List.nil_append, List.cons.injEq,
    true_and] at h'
  obtain ⟨he, hr⟩ := exposeType_lead_inj h'
  simp only [List.cons.injEq, true_and] at hr
  have hk : portKey p.Port (protOrTCP p.Protocol) = portKey q.Port (protOrTCP q.Protocol) := by
    apply String.ext
    simp only [portKey, String.data_append, List.append_assoc]
    exact hr
  obtain ⟨hp, hs⟩ := portKey_inj hk
  simp [tripleOf, he, hp, hs]

theorem exposeKey_eq_iff {p q : PortBinding} :
    exposeKey p = exposeKey q ↔ tripleOf p = tripleOf q := by
  constructor
  · exact exposeKey_inj
  · intro h
    simp only [tripleOf, Prod.mk.injEq] at h
    simp [exposeKey, h.1, h.2.1, h.2.2]

/-! ## Folds that accumulate errors -/

theorem foldl_append_flatMap {α β : Type} (f : α → List β) (l : List α) (init : List β) :
    l.foldl (fun acc x => acc ++ f x) init = init ++ l.flatMap f := by
  induction l generalizing init with
  | nil => simp
  | cons x l ih => simp [List.foldl_cons, ih, List.flatMap_cons, List.append_assoc]

theorem checkBindings_eq (svcName : String) (svc : List String) (pbs : List PortBinding)
    (merr : Error) :
    checkBindings svcName svc pbs merr = merr ++ pbs.flatMap (bindingErrors svcName svc) := by
  unfold checkBindings
  rw [← foldl_append_flatMap]
  congr 1
  funext acc pb
  simp only [bindingErrors, multierrAppend]
  split <;> simp

theorem checkPorts_eq (svcs : List (String × List String))
    (ports : List (String × List PortBinding)) :
    checkPorts svcs ports = ports.flatMap (entryErrors svcs) := by
  unfold checkPorts
  have := foldl_append_flatMap (entryErrors svcs) ports []
  rw [List.nil_append] at this
  rw [← this]
  congr 1
  funext acc entry
  simp only [entryErrors]
  cases h : mapGet svcs entry.1 with
  | none => simp [multierrAppend]
  | some svc => simp [checkBindings_eq]

theorem checkDuplicates_eq (pbm : List (String × List PortBinding)) :
    checkDuplicates pbm = pbm.flatMap (fun entry => containerDupError entry.1 entry.2) := by
  unfold checkDuplicates
  have := foldl_append_flatMap (fun entry : String × List PortBinding =>
    containerDupError entry.1 entry.2) pbm []
  rw [List.nil_append] at this
  rw [← this]
  rfl

theorem mem_mergeErrors (cerr : List Error) (e : String) :
    e ∈ mergeErrors cerr ↔ ∃ err ∈ cerr, e ∈ err := by
  unfold mergeErrors
  have := foldl_append_flatMap (fun err : Error => err) cerr []
  rw [List.nil_append] at this
  have h2 : List.foldl multierrAppend [] cerr = List.foldl (fun acc x => acc ++ x) [] cerr := rfl
  rw [h2, this, List.mem_flatMap]

theorem mergeErrors_eq_nil (cerr : List Error) :
    mergeErrors cerr = [] ↔ ∀ err ∈ cerr, err = [] := by
  constructor
  · intro h err herr
    apply List.eq_nil_iff_forall_not_mem.mpr
    intro e he
    have : e ∈ mergeErrors cerr := (mem_mergeErrors cerr e).mpr ⟨err, herr, he⟩
    rw [h] at this
    exact List.not_mem_nil _ this
  · intro h
    apply List.eq_nil_iff_forall_not_mem.mpr
    intro e he
    obtain ⟨err, herr, hmem⟩ := (mem_mergeErrors cerr e).mp he
    rw [h err herr] at hmem
    exact List.not_mem_nil _ hmem

/-! ## The map of converted Services -/

theorem mem_serviceKeys (svc : Service) (k : String) :
    k ∈ serviceKeys svc ↔ ∃ sp ∈ svc.Ports, k = portKey sp.Port (protOrTCP sp.Protocol) := by
  unfold serviceKeys
  have key : ∀ (l : List ServicePort) (acc : List String),
      k ∈ l.foldl (fun keys p => portKey p.Port (protOrTCP p.Protocol) :: keys) acc ↔
        k ∈ acc ∨ ∃ sp ∈ l, k = portKey sp.Port (protOrTCP sp.Protocol) := by
    intro l
    induction l with
    | nil => intro acc; simp
    | cons p l ih =>
      intro acc
      rw [List.foldl_cons, ih]
      simp only [List.mem_cons, exists_eq_or_imp]
      tauto
  rw [key]
  simp

theorem bindingKey_mem_iff (svc : Service) (pb : PortBinding) :
    portKey pb.Port (protOrTCP pb.Protocol) ∈ serviceKeys svc ↔ bindingMatches svc pb := by
  rw [mem_serviceKeys]
  unfold bindingMatches
  constructor
  · rintro ⟨sp, hsp, h⟩
    have := portKey_inj h
    exact ⟨sp, hsp, this.1.symm, this.2.symm⟩
  · rintro ⟨sp, hsp, h1, h2⟩
    exact ⟨sp, hsp, by rw [h1, h2]⟩

theorem collectServices_eq (objs : List RuntimeObject) :
    collectServices objs =
      ((servicesOf objs).map (fun svc => (svc.Name, serviceKeys svc))).reverse := by
  unfold collectServices
  have key : ∀ (l : List RuntimeObject) (acc : List (String × List String)),
      l.foldl
        (fun svcs obj =>
          match obj with
          | RuntimeObject.service svc => mapSet svcs svc.Name (serviceKeys svc)
          | _ => svcs) acc =
        ((servicesOf l).map (fun svc => (svc.Name, serviceKeys svc))).reverse ++ acc := by
    intro l
    induction l with
    | nil => intro acc; simp [servicesOf]
    | cons obj l ih =>
      intro acc
      rw [List.foldl_cons, ih]
      cases obj <;> simp [servicesOf, mapSet]
  rw [key]
  simp

theorem lookup_map_find (l : List Service) (name : String) :
    List.lookup name (l.map (fun svc => (svc.Name, serviceKeys svc))) =
      (l.find? (fun svc => name == svc.Name)).map serviceKeys := by
  induction l with
  | nil => simp
  | cons s l ih =>
    simp only [List.map_cons, List.lookup_cons, List.find?_cons]
    cases h : name == s.Name <;> simp [ih]

theorem mapGet_collectServices (objs : List RuntimeObject) (name : String) :
    mapGet (collectServices objs) name = (serviceNamed objs name).map serviceKeys := by
  rw [collectServices_eq]
  unfold mapGet serviceNamed
  rw [← List.map_reverse, lookup_map_find]

theorem serviceNamed_eq_none (objs : List RuntimeObject) (name : String) :
    serviceNamed objs name = none ↔ ∀ svc ∈ servicesOf objs, svc.Name ≠ name := by
  unfold serviceNamed
  rw [List.find?_eq_none]
  simp only [List.mem_reverse, beq_iff_eq]
  constructor
  · intro h svc hs he; exact h svc hs he.symm
  · intro h svc hs he; exact h svc hs he.symm

theorem serviceNamed_some (objs : List RuntimeObject) (name : String) (svc : Service)
    (h : serviceNamed objs name = some svc) : svc ∈ servicesOf objs ∧ svc.Name = name := by
  unfold serviceNamed at h
  have h1 := List.find?_some h
  have h2 := List.mem_of_find?_eq_some h
  simp only [beq_iff_eq] at h1
  exact ⟨by simpa using h2, h1.symm⟩

/-- The errors of one container in terms of the converted Services. -/
theorem entryErrors_eq_nil (objs : List RuntimeObject) (entry : String × List PortBinding) :
    entryErrors (collectServices objs) entry = [] ↔
      ∃ svc, serviceNamed objs entry.1 = some svc ∧ ∀ pb ∈ entry.2, bindingMatches svc pb := by
  unfold entryErrors
  rw [mapGet_collectServices]
  cases h : serviceNamed objs entry.1 with
  | none => simp
  | some svc =>
    simp only [Option.map_some', List.flatMap_eq_nil_iff, Option.some.injEq, exists_eq_left']
    constructor
    · intro hall pb hpb
      have := hall pb hpb
      unfold bindingErrors at this
      split at this
      · rename_i hm; exact (bindingKey_mem_iff svc pb).mp hm
      · simp at this
    · intro hall pb hpb
      unfold bindingErrors
      rw [if_pos ((bindingKey_mem_iff svc pb).mpr (hall pb hpb))]

theorem checkPorts_eq_nil (objs : List RuntimeObject) (ports : List (String × List PortBinding)) :
    checkPorts (collectServices objs) ports = [] ↔
      ∀ entry ∈ ports, ∃ svc, serviceNamed objs entry.1 = some svc ∧
        ∀ pb ∈ entry.2, bindingMatches svc pb := by
  rw [checkPorts_eq, List.flatMap_eq_nil_iff]
  constructor
  · intro h entry he; exact (entryErrors_eq_nil objs entry).mp (h entry he)
  · intro h entry he; exact (entryErrors_eq_nil objs entry).mpr (h entry he)

/-! ## The duplicate scan -/

theorem scan_fold (pbs : List PortBinding) : ∀ (st : List String × List String),
    ((pbs.foldl
        (fun st p => (exposeKey p :: st.1, if exposeKey p ∈ st.1 then st.2 ++ [exposeKey p] else st.2))
        st).2 = [] ↔
      st.2 = [] ∧ (∀ p ∈ pbs, exposeKey p ∉ st.1) ∧ (pbs.map exposeKey).Nodup) := by
  induction pbs with
  | nil => intro st; simp
  | cons p pbs ih =>
    intro st
    rw [List.foldl_cons, ih]
    simp only [List.mem_cons, not_or, List.map_cons, List.nodup_cons, List.mem_map,
      not_exists, not_and, forall_eq_or_imp]
    by_cases hk : exposeKey p ∈ st.1
    · simp [hk]
    · simp only [hk, if_false, not_false_eq_true, true_and]
      constructor
      · rintro ⟨h1, h2, h3⟩
        refine ⟨h1, fun q hq => (h2 q hq).2, fun q hq he => (h2 q hq).1 he, h3⟩
      · rintro ⟨h1, h2, h3, h4⟩
        exact ⟨h1, fun q hq => ⟨fun he => h3 q hq he, h2 q hq⟩, h4⟩

theorem dupsOf_eq_nil (pbs : List PortBinding) :
    dupsOf pbs = [] ↔ (pbs.map exposeKey).Nodup := by
  unfold dupsOf scanDups
  rw [scan_fold]
  simp

theorem nodup_keys_iff (pbs : List PortBinding) :
    (pbs.map exposeKey).Nodup ↔ (pbs.map tripleOf).Nodup := by
  rw [List.nodup_iff_getElem?_ne_getElem?, List.nodup_iff_getElem?_ne_getElem?]
  simp only [List.length_map, List.getElem?_map]
  constructor
  · intro h i j hij hj he
    apply h i j hij hj
    have hi : i < pbs.length := by omega
    rw [List.getElem?_eq_getElem hi, List.getElem?_eq_getElem hj] at he ⊢
    simp only [Option.map_some', Option.some.injEq] at he ⊢
    exact exposeKey_eq_iff.mpr he
  · intro h i j hij hj he
    apply h i j hij hj
    have hi : i < pbs.length := by omega
    rw [List.getElem?_eq_getElem hi, List.getElem?_eq_getElem hj] at he ⊢
    simp only [Option.map_some', Option.some.injEq] at he ⊢
    exact exposeKey_eq_iff.mp he

theorem hasDuplicate_iff (pbs : List PortBinding) :
    hasDuplicate pbs ↔ ¬ (pbs.map tripleOf).Nodup := by
  rw [List.nodup_iff_getElem?_ne_getElem?]
  simp only [List.length_map, List.getElem?_map, not_forall, not_not]
  unfold hasDuplicate
  constructor
  · rintro ⟨i, j, hij, p, q, hp, hq, he⟩
    have hj : j < pbs.length := by
      rcases Nat.lt_or_ge j pbs.length with h | h
      · exact h
      · rw [List.getElem?_eq_none h] at hq; cases hq
    exact ⟨i, j, hij, hj, by rw [hp, hq]; simp [he]⟩
  · rintro ⟨i, j, hij, hj, he⟩
    have hi : i < pbs.length := by omega
    rw [List.getElem?_eq_getElem hi, List.getElem?_eq_getElem hj] at he
    simp only [Option.map_some', Option.some.injEq] at he
    exact ⟨i, j, hij, pbs[i], pbs[j], List.getElem?_eq_getElem hi, List.getElem?_eq_getElem hj, he⟩

theorem dupsOf_ne_nil_iff (pbs : List PortBinding) : dupsOf pbs ≠ [] ↔ hasDuplicate pbs := by
  rw [hasDuplicate_iff, ← nodup_keys_iff, ← dupsOf_eq_nil]

theorem containerDupError_of_dup (name : String) (pbs : List PortBinding)
    (h : hasDuplicate pbs) : containerDupError name pbs = [dupMsg name (dupsOf pbs)] := by
  unfold containerDupError
  have := (dupsOf_ne_nil_iff pbs).mpr h
  rw [if_pos]
  simpa [List.length_eq_zero] using this

theorem containerDupError_eq_nil (name : String) (pbs : List PortBinding) :
    containerDupError name pbs = [] ↔ ¬ hasDuplicate pbs := by
  rw [← dupsOf_ne_nil_iff]
  unfold containerDupError
  by_cases h : dupsOf pbs = []
  · simp [h]
  · have : (dupsOf pbs).length ≠ 0 := by simpa [List.length_eq_zero] using h
    simp [this, h]

theorem checkDuplicates_eq_nil (pbm : List (String × List PortBinding)) :
    checkDuplicates pbm = [] ↔ ∀ entry ∈ pbm, ¬ hasDuplicate entry.2 := by
  rw [checkDuplicates_eq, List.flatMap_eq_nil_iff]
  constructor
  · intro h entry he; exact (containerDupError_eq_nil _ _).mp (h entry he)
  · intro h entry he; exact (containerDupError_eq_nil _ _).mpr (h entry he)

/-! ## Success of validation -/

theorem checkSends_all_nil (kompose : Converter) (args : KomposeArgsRaw) :
    (∀ err ∈ checkSends kompose args, err = []) ↔
      args.Identity ≠ "" ∧ args.Hostname ≠ "" ∧ (checkManifest kompose args).1 = [] ∧
        args.Ports ≠ [] ∧ checkDuplicates args.Ports = [] := by
  unfold checkSends checkIdentity checkHostname checkSomePort
  by_cases h1 : args.Identity = "" <;> by_cases h2 : args.Hostname = "" <;>
    by_cases h3 : args.Ports = [] <;> simp [h1, h2, h3, List.length_eq_zero]

theorem checkManifest_eq_nil (kompose : Converter) (args : KomposeArgsRaw) :
    (checkManifest kompose args).1 = [] ↔
      args.YAML ≠ "" ∧ ∃ objs, kompose args.YAML args.Identity = Except.ok objs ∧
        ∀ entry ∈ args.Ports, ∃ svc, serviceNamed objs entry.1 = some svc ∧
          ∀ pb ∈ entry.2, bindingMatches svc pb := by
  unfold checkManifest
  by_cases hy : args.YAML = ""
  · simp [hy]
  · simp only [hy, if_false, ne_eq, not_false_eq_true, true_and]
    cases hk : kompose args.YAML args.Identity with
    | error err => simp
    | ok objs =>
      simp only [Except.ok.injEq, exists_eq_left']
      exact checkPorts_eq_nil objs args.Ports

/-- Validation succeeds exactly when none of the five checks fails. -/
theorem mergeErrors_checkSends_eq_nil (kompose : Converter) (args : KomposeArgsRaw)
    (cerr : List Error) (hperm : cerr.Perm (checkSends kompose args)) :
    mergeErrors cerr = [] ↔
      args.Identity ≠ "" ∧ args.Hostname ≠ "" ∧
        (args.YAML ≠ "" ∧ ∃ objs, kompose args.YAML args.Identity = Except.ok objs ∧
          ∀ entry ∈ args.Ports, ∃ svc, serviceNamed objs entry.1 = some svc ∧
            ∀ pb ∈ entry.2, bindingMatches svc pb) ∧
        args.Ports ≠ [] ∧ ∀ entry ∈ args.Ports, ¬ hasDuplicate entry.2 := by
  rw [mergeErrors_eq_nil, ← checkManifest_eq_nil, ← checkDuplicates_eq_nil,
    ← checkSends_all_nil]
  constructor
  · intro h err herr; exact h err (hperm.mem_iff.mpr herr)
  · intro h err herr; exact h err (hperm.mem_iff.mp herr)

theorem check_eq_nil (kompose : Converter) (args : KomposeArgsRaw) :
    check kompose args = [] ↔
      args.Identity ≠ "" ∧ args.Hostname ≠ "" ∧
        (args.YAML ≠ "" ∧ ∃ objs, kompose args.YAML args.Identity = Except.ok objs ∧
          ∀ entry ∈ args.Ports, ∃ svc, serviceNamed objs entry.1 = some svc ∧
            ∀ pb ∈ entry.2, bindingMatches svc pb) ∧
        args.Ports ≠ [] ∧ ∀ entry ∈ args.Ports, ¬ hasDuplicate entry.2 :=
  mergeErrors_checkSends_eq_nil kompose args _ (List.Perm.refl _)

theorem mem_check (kompose : Converter) (args : KomposeArgsRaw) (cerr : List Error)
    (hperm : cerr.Perm (checkSends kompose args)) (e : String) :
    e ∈ mergeErrors cerr ↔
      e ∈ checkIdentity args.Identity ∨ e ∈ checkHostname args.Hostname ∨
        e ∈ (checkManifest kompose args).1 ∨
        (args.Ports = [] ∧ e = "no port bindings defined") ∨
        e ∈ checkDuplicates args.Ports := by
  rw [mem_mergeErrors]
  have : (∃ err ∈ cerr, e ∈ err) ↔ ∃ err ∈ checkSends kompose args, e ∈ err := by
    constructor
    · rintro ⟨err, h1, h2⟩; exact ⟨err, hperm.mem_iff.mp h1, h2⟩
    · rintro ⟨err, h1, h2⟩; exact ⟨err, hperm.mem_iff.mpr h1, h2⟩
  rw [this]
  unfold checkSends checkSomePort
  by_cases h3 : args.Ports = []
  · simp [h3]
  · simp [h3, List.length_eq_zero]

/-! ## The Service transform -/

theorem dropLeading_append (pre s : List Char) : dropLeading (pre ++ s) pre = some s := by
  induction pre with
  | nil => cases s <;> rfl
  | cons p ps ih => simp [dropLeading, ih]

theorem trimPrefixOf_append (pre s : String) : trimPrefixOf (pre ++ s) pre = s := by
  unfold trimPrefixOf
  rw [String.data_append, dropLeading_append]

theorem serviceTypeOf_fold (pbs : List PortBinding) (init : ExposeType)
    (h : ∀ pb ∈ pbs, ¬ retypes pb) :
    pbs.foldl
      (fun svcType pb =>
        if pb.ExposeType ∈ [ExposeNodePort, ExposeLoadBalancer] then pb.ExposeType else svcType)
      init = init := by
  induction pbs generalizing init with
  | nil => rfl
  | cons pb pbs ih =>
    rw [List.foldl_cons]
    have hpb : pb.ExposeType ∉ [ExposeNodePort, ExposeLoadBalancer] := by
      intro hm
      apply h pb (List.mem_cons_self _ _)
      simpa [retypes] using hm
    rw [if_neg hpb]
    exact ih init (fun q hq => h q (List.mem_cons_of_mem _ hq))

theorem serviceTypeOf_none (pbs : List PortBinding) (h : ∀ pb ∈ pbs, ¬ retypes pb) :
    serviceTypeOf pbs = ExposeInternal :=
  serviceTypeOf_fold pbs ExposeInternal h

theorem serviceTypeOf_last (pre post : List PortBinding) (pb : PortBinding)
    (hpb : retypes pb) (hpost : ∀ q ∈ post, ¬ retypes q) :
    serviceTypeOf (pre ++ pb :: post) = pb.ExposeType := by
  unfold serviceTypeOf
  rw [List.foldl_append, List.foldl_cons]
  have hm : pb.ExposeType ∈ [ExposeNodePort, ExposeLoadBalancer] := by
    simpa [retypes] using hpb
  rw [if_pos hm]
  exact serviceTypeOf_fold post pb.ExposeType hpost

/-! ## Claims on validation -/

/-- C1: validation does not stop at the first failing check. Whatever the order in which the
five checks deliver their result, the merged error carries the error of every failing check
(empty identity, empty hostname, empty manifest, conversion error, container without Service,
binding without matching Service port, port-binding map without entry, duplicated bindings),
and it is `nil` exactly when none of them fails. -/
theorem check_reports_every_failing_check (kompose : Converter) (args : KomposeArgsRaw)
    (cerr : List Error) (hperm : cerr.Perm (checkSends kompose args)) :
    (args.Identity = "" → "identity could not be empty" ∈ mergeErrors cerr) ∧
    (args.Hostname = "" → "hostname could not be empty" ∈ mergeErrors cerr) ∧
    (args.YAML = "" → "empty YAML is not allowed" ∈ mergeErrors cerr) ∧
    (∀ err, args.YAML ≠ "" → kompose args.YAML args.Identity = Except.error err →
      err ∈ mergeErrors cerr) ∧
    (∀ objs, args.YAML ≠ "" → kompose args.YAML args.Identity = Except.ok objs →
      ∀ entry ∈ args.Ports,
        (serviceNamed objs entry.1 = none →
          "service " ++ entry.1 ++ " not found" ∈ mergeErrors cerr) ∧
        (∀ svc, serviceNamed objs entry.1 = some svc → ∀ pb ∈ entry.2,
          ¬ bindingMatches svc pb →
            "service " ++ entry.1 ++ " has no port binding for "
              ++ portKey pb.Port (protOrTCP pb.Protocol) ∈ mergeErrors cerr)) ∧
    (args.Ports = [] → "no port bindings defined" ∈ mergeErrors cerr) ∧
    (∀ entry ∈ args.Ports, hasDuplicate entry.2 →
      "container " ++ entry.1 ++ " has duplicated ports: "
        ++ String.intercalate ", " (dupsOf entry.2) ∈ mergeErrors cerr) ∧
    (mergeErrors cerr = [] ↔
      args.Identity ≠ "" ∧ args.Hostname ≠ "" ∧
        (args.YAML ≠ "" ∧ ∃ objs, kompose args.YAML args.Identity = Except.ok objs ∧
          ∀ entry ∈ args.Ports, ∃ svc, serviceNamed objs entry.1 = some svc ∧
            ∀ pb ∈ entry.2, bindingMatches svc pb) ∧
        args.Ports ≠ [] ∧ ∀ entry ∈ args.Ports, ¬ hasDuplicate entry.2) := by
  have hm := mem_check kompose args cerr hperm
  refine ⟨?_, ?_, ?_, ?_, ?_, ?_, ?_, mergeErrors_checkSends_eq_nil kompose args cerr hperm⟩
  · intro h
    rw [hm]; left; simp [checkIdentity, h]
  · intro h
    rw [hm]; right; left; simp [checkHostname, h]
  · intro h
    rw [hm]; right; right; left; simp [checkManifest, h]
  · intro err hy hk
    rw [hm]; right; right; left; simp [checkManifest, hy, hk]
  · intro objs hy hk entry hentry
    have hman : (checkManifest kompose args).1 = args.Ports.flatMap
        (entryErrors (collectServices objs)) := by
      simp [checkManifest, hy, hk, checkPorts_eq]
    constructor
    · intro hnone
      rw [hm]; right; right; left
      rw [hman, List.mem_flatMap]
      refine ⟨entry, hentry, ?_⟩
      simp [entryErrors, mapGet_collectServices, hnone, notFoundMsg]
    · intro svc hsome pb hpb hno
      rw [hm]; right; right; left
      rw [hman, List.mem_flatMap]
      refine ⟨entry, hentry, ?_⟩
      simp only [entryErrors, mapGet_collectServices, hsome, Option.map_some', List.mem_flatMap]
      refine ⟨pb, hpb, ?_⟩
      have : portKey pb.Port (protOrTCP pb.Protocol) ∉ serviceKeys svc :=
        fun h => hno ((bindingKey_mem_iff svc pb).mp h)
      simp [bindingErrors, this, noBindingMsg]
  · intro h
    rw [hm]; right; right; right; left; exact ⟨h, rfl⟩
  · intro entry hentry hdup
    rw [hm]; right; right; right; right
    rw [checkDuplicates_eq, List.mem_flatMap]
    refine ⟨entry, hentry, ?_⟩
    rw [containerDupError_of_dup _ _ hdup]
    simp [dupMsg]

/-- C1, instance: with every field empty and the channel read in reverse order, the merged
error still carries the identity error. -/
theorem check_reports_every_failing_check_witness :
    "identity could not be empty" ∈
      mergeErrors (checkSends vipOnlyConverter
        { vipOnlyArgs [] with Identity := "", Hostname := "", YAML := "" }).reverse :=
  (check_reports_every_failing_check vipOnlyConverter
    { vipOnlyArgs [] with Identity := "", Hostname := "", YAML := "" } _
    (List.reverse_perm _)).1 rfl

/-- C2, as stated, fails: the map declares container `ghost` with no binding and container
`node` with a binding on 3000 that matches the converted Service `node`. Every declared binding
matches, one binding exists, no triple is duplicated, yet validation reports that Service
`ghost` is missing. -/
theorem check_rejects_container_without_service :
    (vipOnlyArgs [("ghost", []), ("node", [binding 3000 ExposeNodePort])]).Identity ≠ "" ∧
    (vipOnlyArgs [("ghost", []), ("node", [binding 3000 ExposeNodePort])]).Hostname ≠ "" ∧
    (vipOnlyArgs [("ghost", []), ("node", [binding 3000 ExposeNodePort])]).YAML ≠ "" ∧
    (∀ entry ∈ [("ghost", []), ("node", [binding 3000 ExposeNodePort])],
      ∀ pb ∈ entry.2, ∃ svc ∈ servicesOf vipOnlyObjects,
        svc.Name = entry.1 ∧ bindingMatches svc pb) ∧
    (∃ entry ∈ [("ghost", ([] : List PortBinding)), ("node", [binding 3000 ExposeNodePort])],
      entry.2 ≠ []) ∧
    (∀ entry ∈ [("ghost", []), ("node", [binding 3000 ExposeNodePort])],
      ¬ hasDuplicate entry.2) ∧
    check vipOnlyConverter (vipOnlyArgs [("ghost", []), ("node", [binding 3000 ExposeNodePort])])
      = ["service ghost not found"] := by
  refine ⟨by decide, by decide, by decide, ?_, ?_, ?_, by decide⟩
  · intro entry hentry pb hpb
    simp only [List.mem_cons, List.mem_singleton, List.not_mem_nil, or_false] at hentry
    rcases hentry with h | h
    · subst h; simp at hpb
    · subst h
      simp only [List.mem_singleton] at hpb
      subst hpb
      exact ⟨nodeService, by decide, rfl, ⟨⟨3000, "TCP"⟩, by decide, rfl, by decide⟩⟩
  · exact ⟨("node", [binding 3000 ExposeNodePort]), by simp, by simp⟩
  · intro entry hentry
    rw [hasDuplicate_iff]
    simp only [List.mem_cons, List.mem_singleton, List.not_mem_nil, or_false] at hentry
    rcases hentry with h | h <;> subst h <;> simp

/-- C2, amended: with a non-empty identity, a non-empty hostname and a non-empty manifest that
converts, validation succeeds when every container of the port-binding map (also one without
binding) has a converted Service named after it, every declared binding matches a port and
protocol of that Service (the last converted one when several carry the name), at least one
binding exists, and no container repeats an `(exposeType, port, protocol)` triple. -/
theorem check_succeeds (kompose : Converter) (args : KomposeArgsRaw)
    (objs : List RuntimeObject)
    (hid : args.Identity ≠ "") (hhost : args.Hostname ≠ "") (hyaml : args.YAML ≠ "")
    (hconv : kompose args.YAML args.Identity = Except.ok objs)
    (hmatch : ∀ entry ∈ args.Ports, ∃ svc, serviceNamed objs entry.1 = some svc ∧
      ∀ pb ∈ entry.2, bindingMatches svc pb)
    (hsome : ∃ entry ∈ args.Ports, entry.2 ≠ [])
    (hnodup : ∀ entry ∈ args.Ports, ¬ hasDuplicate entry.2) :
    check kompose args = [] := by
  rw [check_eq_nil]
  refine ⟨hid, hhost, ⟨hyaml, objs, hconv, hmatch⟩, ?_, hnodup⟩
  obtain ⟨entry, hentry, _⟩ := hsome
  exact List.ne_nil_of_mem hentry

/-- C2, instance: the test `vip-only-nodeport` (container `node` bound on 3000 as NodePort)
passes validation. -/
theorem check_succeeds_witness :
    check vipOnlyConverter (vipOnlyArgs [("node", [binding 3000 ExposeNodePort])]) = [] :=
  check_succeeds vipOnlyConverter (vipOnlyArgs [("node", [binding 3000 ExposeNodePort])])
    vipOnlyObjects (by decide) (by decide) (by decide) rfl
    (by
      intro entry hentry
      simp only [vipOnlyArgs, List.mem_singleton] at hentry
      subst hentry
      refine ⟨nodeService, by decide, ?_⟩
      intro pb hpb
      simp only [List.mem_singleton] at hpb
      subst hpb
      exact ⟨⟨3000, "TCP"⟩, by decide, rfl, by decide⟩)
    ⟨("node", [binding 3000 ExposeNodePort]), by simp [vipOnlyArgs], by simp⟩
    (by
      intro entry hentry
      simp only [vipOnlyArgs, List.mem_singleton] at hentry
      subst hentry
      rw [hasDuplicate_iff]
      simp)

/-- C3, the code at the failing input: the port-binding map has the single container `node`
with an empty list of bindings, so no binding is declared, and validation returns `nil`
instead of "no port bindings defined". -/
theorem check_accepts_container_without_binding :
    (∀ entry ∈ (vipOnlyArgs [("node", [])]).Ports, entry.2 = []) ∧
    check vipOnlyConverter (vipOnlyArgs [("node", [])]) = [] ∧
    "no port bindings defined" ∉ check vipOnlyConverter (vipOnlyArgs [("node", [])]) := by
  refine ⟨by decide, by decide, by decide⟩

/-- C4, as stated, fails: container `ghost` is declared with no binding, so no declared binding
lacks a matching Service port, yet the port-correspondence check reports an error because no
Service is named `ghost`. -/
theorem checkManifest_reports_without_binding :
    (checkManifest vipOnlyConverter (vipOnlyArgs [("ghost", [])])).1
      = ["service ghost not found"] ∧
    ¬ (∃ entry ∈ (vipOnlyArgs [("ghost", [])]).Ports, ∃ pb ∈ entry.2,
        ¬ ∃ svc ∈ servicesOf vipOnlyObjects, svc.Name = entry.1 ∧ bindingMatches svc pb) := by
  refine ⟨by decide, ?_⟩
  rintro ⟨entry, hentry, pb, hpb, _⟩
  simp only [vipOnlyArgs, List.mem_singleton] at hentry
  subst hentry
  simp at hpb

/-- C4, amended: for a non-empty manifest that converts, the port-correspondence check reports
an error exactly when some container of the port-binding map (also one without binding) has no
converted Service named after it, or some declared binding has no matching port and protocol
(empty read as `"TCP"` on both sides) on the Service named after its container, the last
converted one when several carry the name. When no converted Service carries the container's
name, the error names that service. -/
theorem checkManifest_reports_iff (kompose : Converter) (args : KomposeArgsRaw)
    (objs : List RuntimeObject) (hyaml : args.YAML ≠ "")
    (hconv : kompose args.YAML args.Identity = Except.ok objs) :
    ((checkManifest kompose args).1 ≠ [] ↔
      ∃ entry ∈ args.Ports,
        (∀ svc ∈ servicesOf objs, svc.Name ≠ entry.1) ∨
        ∃ svc, serviceNamed objs entry.1 = some svc ∧ ∃ pb ∈ entry.2, ¬ bindingMatches svc pb) ∧
    (∀ entry ∈ args.Ports, (∀ svc ∈ servicesOf objs, svc.Name ≠ entry.1) →
      "service " ++ entry.1 ++ " not found" ∈ (checkManifest kompose args).1 ∧
      "service " ++ entry.1 ++ " not found" ∈ check kompose args) := by
  have hman : (checkManifest kompose args).1 = checkPorts (collectServices objs) args.Ports := by
    simp [checkManifest, hyaml, hconv]
  constructor
  · rw [hman, ne_eq, checkPorts_eq_nil]
    constructor
    · intro h
      by_contra hcon
      apply h
      intro entry hentry
      cases hs : serviceNamed objs entry.1 with
      | none =>
        exfalso
        exact hcon ⟨entry, hentry, Or.inl ((serviceNamed_eq_none objs entry.1).mp hs)⟩
      | some svc =>
        refine ⟨svc, rfl, ?_⟩
        intro pb hpb
        by_contra hno
        exact hcon ⟨entry, hentry, Or.inr ⟨svc, hs, pb, hpb, hno⟩⟩
    · rintro ⟨entry, hentry, hcase⟩ hall
      obtain ⟨svc, hs, hm⟩ := hall entry hentry
      rcases hcase with hnone | ⟨svc', hs', pb, hpb, hno⟩
      · rw [(serviceNamed_eq_none objs entry.1).mpr hnone] at hs
        cases hs
      · rw [hs] at hs'
        cases hs'
        exact hno (hm pb hpb)
  · intro entry hentry hnone
    have hin : "service " ++ entry.1 ++ " not found" ∈ (checkManifest kompose args).1 := by
      rw [hman, checkPorts_eq, List.mem_flatMap]
      refine ⟨entry, hentry, ?_⟩
      simp [entryErrors, mapGet_collectServices,
        (serviceNamed_eq_none objs entry.1).mpr hnone, notFoundMsg]
    refine ⟨hin, ?_⟩
    unfold check
    rw [mem_check kompose args _ (List.Perm.refl _)]
    right; right; left; exact hin

/-- C4, instance: scenario 3, a binding on container `redis` that the test manifest does not
define makes validation fail naming `redis`. -/
theorem checkManifest_reports_iff_witness :
    "service redis not found" ∈
      check vipOnlyConverter (vipOnlyArgs [("redis", [binding 6379 ExposeNodePort])]) :=
  ((checkManifest_reports_iff vipOnlyConverter
    (vipOnlyArgs [("redis", [binding 6379 ExposeNodePort])]) vipOnlyObjects
    (by decide) rfl).2 ("redis", [binding 6379 ExposeNodePort]) (by simp [vipOnlyArgs])
    (by decide)).2

/-- C5: the duplicate check reports an error for a container exactly when two of its bindings,
at different positions, carry the same `(exposeType, port, protocol)` triple, an empty protocol
read as `"TCP"`; the error of the check is made of the errors of the containers. Declaring
port 8080 as NodePort twice for one container makes validation fail with the message
"container <name> has duplicated ports: expose NodePort on 8080/<protocol>". -/
theorem checkDuplicates_reports_iff (pbm : List (String × List PortBinding)) :
    (∀ e, e ∈ checkDuplicates pbm ↔ ∃ entry ∈ pbm, e ∈ containerDupError entry.1 entry.2) ∧
    (∀ name pbs, containerDupError name pbs ≠ [] ↔ hasDuplicate pbs) ∧
    (∀ name pbs, hasDuplicate pbs →
      containerDupError name pbs =
        ["container " ++ name ++ " has duplicated ports: "
          ++ String.intercalate ", " (dupsOf pbs)]) ∧
    (∀ (kompose : Converter) (args : KomposeArgsRaw) (name prot : String)
      (a1 a2 : List (String × String)),
      (name, [{ Port := 8080, Protocol := prot, ExposeType := ExposeNodePort,
                Annotations := a1 },
              { Port := 8080, Protocol := prot, ExposeType := ExposeNodePort,
                Annotations := a2 }]) ∈ args.Ports →
      "container " ++ name ++ " has duplicated ports: " ++
        ("expose NodePort on 8080/" ++ protOrTCP prot) ∈ check kompose args) := by
  refine ⟨?_, ?_, ?_, ?_⟩
  · intro e
    rw [checkDuplicates_eq, List.mem_flatMap]
  · intro name pbs
    rw [ne_eq, containerDupError_eq_nil, not_not]
  · intro name pbs h
    rw [containerDupError_of_dup name pbs h]
    rfl
  · intro kompose args name prot a1 a2 hmem
    unfold check
    rw [mem_check kompose args _ (List.Perm.refl _)]
    right; right; right; right
    rw [checkDuplicates_eq, List.mem_flatMap]
    refine ⟨_, hmem, ?_⟩
    have hk : ∀ a : List (String × String),
        exposeKey { Port := 8080, Protocol := prot, ExposeType := ExposeNodePort,
                    Annotations := a } = "expose NodePort on 8080/" ++ protOrTCP prot := by
      intro a
      apply String.ext
      simp only [exposeKey, ExposeType.toString, String.data_append, List.append_assoc]
      rfl
    have hd : dupsOf [{ Port := 8080, Protocol := prot, ExposeType := ExposeNodePort,
                        Annotations := a1 },
                      { Port := 8080, Protocol := prot, ExposeType := ExposeNodePort,
                        Annotations := a2 }] = ["expose NodePort on 8080/" ++ protOrTCP prot] := by
      simp [dupsOf, scanDups, hk]
    simp [containerDupError, hd, dupMsg, String.intercalate, String.intercalate.go]

/-- C6, as stated, fails: container `node` binds port 3000 once as NodePort and once as
Ingress; the two bindings share the `(port, protocol)` pair and validation succeeds. -/
theorem check_accepts_same_port_other_type :
    hasDuplicatePort [binding 3000 ExposeNodePort, binding 3000 ExposeIngress] ∧
    check vipOnlyConverter
      (vipOnlyArgs [("node", [binding 3000 ExposeNodePort, binding 3000 ExposeIngress])]) = [] :=
  ⟨⟨0, 1, by decide, binding 3000 ExposeNodePort, binding 3000 ExposeIngress, rfl, rfl, rfl, rfl⟩,
    by decide⟩

/-- C6, amended: when some container has two bindings with the same
`(exposeType, port, protocol)` triple (empty protocol read as `"TCP"`), validation fails and its
error carries the duplicate error of that container. -/
theorem check_fails_on_duplicate (kompose : Converter) (args : KomposeArgsRaw)
    (entry : String × List PortBinding) (hentry : entry ∈ args.Ports)
    (hdup : hasDuplicate entry.2) :
    check kompose args ≠ [] ∧
      "container " ++ entry.1 ++ " has duplicated ports: "
        ++ String.intercalate ", " (dupsOf entry.2) ∈ check kompose args := by
  have hin : "container " ++ entry.1 ++ " has duplicated ports: "
      ++ String.intercalate ", " (dupsOf entry.2) ∈ check kompose args := by
    unfold check
    rw [mem_check kompose args _ (List.Perm.refl _)]
    right; right; right; right
    rw [checkDuplicates_eq, List.mem_flatMap]
    refine ⟨entry, hentry, ?_⟩
    rw [containerDupError_of_dup _ _ hdup]
    simp [dupMsg]
  exact ⟨List.ne_nil_of_mem hin, hin⟩

/-- C6, instance: binding port 3000 of `node` as NodePort twice, once with the protocol left
empty and once with `"TCP"`, is a duplicate and validation fails. -/
theorem check_fails_on_duplicate_witness :
    check vipOnlyConverter
      (vipOnlyArgs [("node", [binding 3000 ExposeNodePort,
        { Port := 3000, Protocol := "TCP", ExposeType := ExposeNodePort, Annotations := [] }])])
      ≠ [] :=
  (check_fails_on_duplicate vipOnlyConverter
    (vipOnlyArgs [("node", [binding 3000 ExposeNodePort,
      { Port := 3000, Protocol := "TCP", ExposeType := ExposeNodePort, Annotations := [] }])])
    ("node", [binding 3000 ExposeNodePort,
      { Port := 3000, Protocol := "TCP", ExposeType := ExposeNodePort, Annotations := [] }])
    (by simp [vipOnlyArgs])
    ⟨0, 1, by decide, _, _, rfl, rfl, rfl⟩).1

/-- C7: with an empty manifest validation fails with "empty YAML is not allowed", whatever the
identity, the hostname, the port bindings and the converter are, and the converter is not
invoked. -/
theorem check_rejects_empty_manifest (kompose : Converter) (args : KomposeArgsRaw)
    (hyaml : args.YAML = "") :
    check kompose args ≠ [] ∧ "empty YAML is not allowed" ∈ check kompose args ∧
      checkInvocations kompose args = [] := by
  have hin : "empty YAML is not allowed" ∈ check kompose args := by
    unfold check
    rw [mem_check kompose args _ (List.Perm.refl _)]
    right; right; left
    simp [checkManifest, hyaml]
  refine ⟨List.ne_nil_of_mem hin, hin, ?_⟩
  simp [checkInvocations, checkManifest, hyaml]

/-- C7, instance: the test arguments with the manifest emptied and a valid binding. -/
theorem check_rejects_empty_manifest_witness :
    check vipOnlyConverter
      { vipOnlyArgs [("node", [binding 3000 ExposeNodePort])] with YAML := "" }
      = ["empty YAML is not allowed"] ∧
    checkInvocations vipOnlyConverter
      { vipOnlyArgs [("node", [binding 3000 ExposeNodePort])] with YAML := "" } = [] :=
  ⟨by decide,
    (check_rejects_empty_manifest vipOnlyConverter
      { vipOnlyArgs [("node", [binding 3000 ExposeNodePort])] with YAML := "" } rfl).2.2⟩

/-! ## Claims on the constructor and on exposure -/

/-- C8: when the args are nil or validation fails, `NewKompose` returns an error (the whole
validation error in the second case) and the engine has registered no resource: the state is
still the initial one. -/
theorem NewKompose_fails_before_any_resource (env : Env) (name : String)
    (args : Option KomposeArgsRaw)
    (h : args = none ∨ ∃ input, args = some input ∧ check env.kompose input ≠ []) :
    (∃ err, err ≠ [] ∧ (runNewKompose env name args).1 = Except.error (Failure.error err) ∧
      (args = none → err = ["nil args"]) ∧
      (∀ input, args = some input → err = check env.kompose input)) ∧
    (runNewKompose env name args).2.registered = [] ∧
    (runNewKompose env name args).2 = Kompose.init := by
  rcases h with h | ⟨input, h, hcheck⟩
  · subst h
    refine ⟨⟨["nil args"], by simp, rfl, fun _ => rfl, fun input hi => by cases hi⟩, rfl, rfl⟩
  · subst h
    cases hc : check env.kompose input with
    | nil => exact absurd hc hcheck
    | cons err errs =>
      refine ⟨⟨err :: errs, by simp, ?_, ?_, ?_⟩, ?_, ?_⟩
      · simp only [runNewKompose, NewKompose, hc]; rfl
      · intro hn; cases hn
      · intro input' hi
        cases hi
        exact hc.symm
      · simp only [runNewKompose, NewKompose, hc]; rfl
      · simp only [runNewKompose, NewKompose, hc]; rfl

/-- C8, instance: the test `vip-only-no-portbinding` returns the validation error and
registers nothing. -/
theorem NewKompose_fails_before_any_resource_witness :
    (runNewKompose clusterEnv "kmp-test" (some (vipOnlyArgs []))).1
      = Except.error (Failure.error ["no port bindings defined"]) ∧
    (runNewKompose clusterEnv "kmp-test" (some (vipOnlyArgs []))).2.registered = [] :=
  ⟨rfl,
    (NewKompose_fails_before_any_resource clusterEnv "kmp-test" (some (vipOnlyArgs []))
      (Or.inr ⟨vipOnlyArgs [], rfl, by decide⟩)).2.1⟩

/-- The transform called with the resource name `kompose:default/<container>`, the one whose
leading part it trims: the type it writes is the exposure type of the last binding, in
declaration order, that is NodePort or LoadBalancer, and the empty string when the container
has no such binding. -/
theorem serviceTransform_at_default_name (args : KomposeArgsRaw) (container : String)
    (props : ServiceProps) :
    (∀ pre pb post, args.portsOf container = pre ++ pb :: post →
      (pb.ExposeType = ExposeNodePort ∨ pb.ExposeType = ExposeLoadBalancer) →
      (∀ q ∈ post, ¬ (q.ExposeType = ExposeNodePort ∨ q.ExposeType = ExposeLoadBalancer)) →
      ∃ out, serviceTransform args "kubernetes:core/v1:Service"
          ("kompose:default/" ++ container) props = some out ∧
        out.SpecType = some pb.ExposeType.toString ∧
        (pb.ExposeType = ExposeNodePort → out.SpecType = some "NodePort") ∧
        (pb.ExposeType = ExposeLoadBalancer → out.SpecType = some "LoadBalancer")) ∧
    ((∀ q ∈ args.portsOf container,
        ¬ (q.ExposeType = ExposeNodePort ∨ q.ExposeType = ExposeLoadBalancer)) →
      serviceTransform args "kubernetes:core/v1:Service"
          ("kompose:default/" ++ container) props = some { props with SpecType := some "" }) := by
  constructor
  · intro pre pb post hsplit hpb hpost
    have ht : serviceTypeOf (args.portsOf container) = pb.ExposeType := by
      rw [hsplit]; exact serviceTypeOf_last pre post pb hpb hpost
    simp only [serviceTransform, if_true, trimPrefixOf_append, ht]
    rcases hpb with h | h <;> rw [h] <;> simp [ExposeType.toString]
  · intro hnone
    have ht : serviceTypeOf (args.portsOf container) = ExposeInternal :=
      serviceTypeOf_none _ hnone
    simp only [serviceTransform, if_true, trimPrefixOf_append, ht]

theorem dropLeading_eq_some : ∀ (pre s r : List Char), dropLeading s pre = some r → s = pre ++ r
  | [], s, r, h => by
    cases s <;> simp [dropLeading] at h <;> simp [h]
  | _ :: _, [], r, h => by simp [dropLeading] at h
  | p :: ps, c :: s, r, h => by
    simp only [dropLeading] at h
    split at h
    · next hc =>
      subst hc
      simp [dropLeading_eq_some ps s r h]
    · cases h

/-- A resource name `kompose:<namespace>/<name>` whose namespace is not `default` does not start
with `kompose:default/`: the transform trims nothing from it. -/
theorem trimPrefixOf_namespaced (identity container : String) (hslash : '/' ∉ identity.data)
    (hid : identity ≠ "default") :
    trimPrefixOf ("kompose:" ++ identity ++ "/" ++ container) "kompose:default/"
      = "kompose:" ++ identity ++ "/" ++ container := by
  unfold trimPrefixOf
  cases h : dropLeading ("kompose:" ++ identity ++ "/" ++ container).data
      "kompose:default/".data with
  | none => rfl
  | some r =>
    exfalso
    have h1 := dropLeading_eq_some _ _ _ h
    simp only [String.data_append, List.append_assoc] at h1
    simp only [List.cons_append, List.nil_append, List.cons.injEq, true_and] at h1
    have h2 : identity.data ++ '/' :: container.data = "default".data ++ '/' :: r := h1
    have h3 := (append_sep_inj hslash (by decide) h2).1
    exact hid (String.ext h3)

set_option maxRecDepth 20000 in
/-- C9, the code at the failing input: the NodePort binding of container `node` is declared under
the key `node`, and the Service transform is called for the child `kompose:a0b1c2d3/node`, named
after the namespace `provision` gives every converted object (the identity). The transform trims
only `kompose:default/`, reads the bindings of a container called `kompose:a0b1c2d3/node`, finds
none and writes the empty type: the Service is not re-typed, no node port is allocated and the
run ends without an endpoint for the binding. Called with `kompose:default/node` the same
transform writes `NodePort`. The same holds for every identity other than `default`. -/
theorem serviceTransform_misses_namespaced_service :
    trimPrefixOf "kompose:a0b1c2d3/node" "kompose:default/" = "kompose:a0b1c2d3/node" ∧
    (vipOnlyArgs [("node", [binding 3000 ExposeNodePort])]).portsOf "kompose:a0b1c2d3/node"
      = [] ∧
    serviceTransform (vipOnlyArgs [("node", [binding 3000 ExposeNodePort])])
        "kubernetes:core/v1:Service" "kompose:a0b1c2d3/node"
        { SpecType := none, Annotations := [] }
      = some { SpecType := some "", Annotations := [] } ∧
    serviceTransform (vipOnlyArgs [("node", [binding 3000 ExposeNodePort])])
        "kubernetes:core/v1:Service" "kompose:default/node"
        { SpecType := none, Annotations := [] }
      = some { SpecType := some "NodePort", Annotations := [] } ∧
    transformChild (namespacedEnv "a0b1c2d3")
        (vipOnlyArgs [("node", [binding 3000 ExposeNodePort])])
        (RuntimeObject.service nodeService)
      = ChildObject.service "kompose:a0b1c2d3/node" (some "") [] nodeService ∧
    (runNewKompose (namespacedEnv "a0b1c2d3") "kmp-test"
        (some (vipOnlyArgs [("node", [binding 3000 ExposeNodePort])]))).1 = Except.ok () ∧
    (runNewKompose (namespacedEnv "a0b1c2d3") "kmp-test"
        (some (vipOnlyArgs [("node", [binding 3000 ExposeNodePort])]))).2.URLs
      = [("node", [])] ∧
    (∀ (args : KomposeArgsRaw) (container : String) (props : ServiceProps),
      '/' ∉ args.Identity.data → args.Identity ≠ "default" →
      args.Ports.lookup ("kompose:" ++ args.Identity ++ "/" ++ container) = none →
      serviceTransform args "kubernetes:core/v1:Service"
          ("kompose:" ++ args.Identity ++ "/" ++ container) props
        = some { props with SpecType := some "" }) := by
  refine ⟨by decide, by decide, by decide, by decide, by decide, rfl, by decide, ?_⟩
  intro args container props hslash hid hlookup
  have hports : args.portsOf ("kompose:" ++ args.Identity ++ "/" ++ container) = [] := by
    simp [KomposeArgsRaw.portsOf, hlookup]
  simp only [serviceTransform, if_true, trimPrefixOf_namespaced _ _ hslash hid, hports]
  rfl

/-- C10: for a binding correlated to a Service, exposing it as LoadBalancer runs exactly as
exposing it as NodePort. In both cases one policy is registered (when the engine accepts it):
policy type Ingress, pod selector equal to the labels of the Service, a single ingress rule
from the CIDR `FromCIDR()` (the caller's `fromCIDR`, when it is not empty) on the port and
protocol of the binding, the protocol being what the accessor `p.Protocol()` yields: `"TCP"`
for a binding that leaves it empty. -/
theorem loadBalancer_policy_eq_nodePort (env : Env) (args : KomposeArgsRaw)
    (res : List LiveService) (i j : Nat) (rawName : String) (pb : PortBinding)
    (loc : Correlation) (svc : LiveService)
    (hsvc : locateService res rawName pb = Except.ok (some svc)) :
    exposeBinding env args res i rawName j { pb with ExposeType := ExposeLoadBalancer } loc
      = exposeBinding env args res i rawName j { pb with ExposeType := ExposeNodePort } loc ∧
    (∀ (t : ExposeType) (kmp : Kompose) (pol : NetworkPolicyArgs),
      (t = ExposeLoadBalancer ∨ t = ExposeNodePort) →
      pol = { Metadata :=
                { Labels := svc.Labels,
                  Name := some (ntpName args.Identity args.Label rawName pb.Port pb.protocol),
                  Namespace := some args.Identity, Annotations := [] },
              Spec :=
                { PodSelector := { MatchLabels := svc.Labels },
                  PolicyTypes := ["Ingress"],
                  Ingress :=
                    [{ From := [{ IpBlock := some { Cidr := args.fromCIDR env.defaultCIDR,
                                                    Except := [] },
                                  NamespaceSelector := none, PodSelector := none }],
                       Ports := [{ Port := pb.Port, Protocol := pb.protocol }] }],
                  Egress := [] } } →
      env.reject (Resource.networkPolicy ("emp-ntp-" ++ rawName ++ "-" ++ toString i) pol)
        = none →
      (((exposeBinding env args res i rawName j { pb with ExposeType := t } loc).run.run kmp).2
          ).registered
        = kmp.registered
            ++ [Resource.networkPolicy ("emp-ntp-" ++ rawName ++ "-" ++ toString i) pol] ∧
      (((exposeBinding env args res i rawName j { pb with ExposeType := t } loc).run.run kmp).2
          ).ntps = kmp.ntps ++ [pol]) ∧
    (args.FromCIDR ≠ "" → args.fromCIDR env.defaultCIDR = args.FromCIDR) ∧
    (pb.Protocol = "" → pb.protocol = "TCP") ∧
    (pb.Protocol ≠ "" → pb.protocol = pb.Protocol) := by
  have hloc : ∀ t : ExposeType,
      locateService res rawName { pb with ExposeType := t } = Except.ok (some svc) := by
    intro t; rw [← hsvc]; rfl
  refine ⟨?_, ?_, ?_, ?_, ?_⟩
  · simp only [exposeBinding, hloc]
    rfl
  · intro t kmp pol ht hpol hrej
    have hpol' : nodePortPolicy env args rawName svc { pb with ExposeType := t } = pol := by
      rw [hpol]; rfl
    rcases ht with ht | ht <;> subst ht
    · simp only [exposeBinding, hloc, hpol', create, hrej]
      exact ⟨rfl, rfl⟩
    · simp only [exposeBinding, hloc, hpol', create, hrej]
      exact ⟨rfl, rfl⟩
  · intro h
    simp [KomposeArgsRaw.fromCIDR, h]
  · intro h
    simp [PortBinding.protocol, h]
  · intro h
    simp [PortBinding.protocol, h]

/-- C10, instance: container `node` bound on 3000 with the protocol left empty, correlated to
the LoadBalancer Service `node` of a cluster; the LoadBalancer binding registers the policy
`emp-ntp-a0b1c2d3-node-3000-tcp` from the default CIDR on 3000/TCP, as the NodePort binding
does. -/
theorem loadBalancer_policy_eq_nodePort_witness :
    (((exposeBinding clusterEnv (vipOnlyArgs [("node", [binding 3000 ExposeLoadBalancer])])
        [{ Name := "node", Labels := [("io.kompose.service", "node")],
           Spec := { ServiceType := some "LoadBalancer",
                     Ports := [{ Port := 3000, Protocol := some "TCP", NodePort := some 33000 }],
                     ExternalIPs := ["203.0.113.10"] } }]
        0 "node" 0 { binding 3000 ExposeInternal with ExposeType := ExposeLoadBalancer }
        { svcs := [], svcSpecs := [], ings := [], ingSpecs := [] }).run.run Kompose.init).2).ntps
      = Kompose.init.ntps ++
        [{ Metadata :=
             { Labels := [("io.kompose.service", "node")],
               Name := some "emp-ntp-a0b1c2d3-node-3000-tcp",
               Namespace := some "a0b1c2d3", Annotations := [] },
           Spec :=
             { PodSelector := { MatchLabels := [("io.kompose.service", "node")] },
               PolicyTypes := ["Ingress"],
               Ingress :=
                 [{ From := [{ IpBlock := some { Cidr := "0.0.0.0/0", Except := [] },
                               NamespaceSelector := none, PodSelector := none }],
                    Ports := [{ Port := 3000, Protocol := "TCP" }] }],
               Egress := [] } }] :=
  ((loadBalancer_policy_eq_nodePort clusterEnv
    (vipOnlyArgs [("node", [binding 3000 ExposeLoadBalancer])])
    [{ Name := "node", Labels := [("io.kompose.service", "node")],
       Spec := { ServiceType := some "LoadBalancer",
                 Ports := [{ Port := 3000, Protocol := some "TCP", NodePort := some 33000 }],
                 ExternalIPs := ["203.0.113.10"] } }]
    0 0 "node" (binding 3000 ExposeInternal)
    { svcs := [], svcSpecs := [], ings := [], ingSpecs := [] }
    { Name := "node", Labels := [("io.kompose.service", "node")],
      Spec := { ServiceType := some "LoadBalancer",
                Ports := [{ Port := 3000, Protocol := some "TCP", NodePort := some 33000 }],
                ExternalIPs := ["203.0.113.10"] } }
    rfl).2.1 ExposeLoadBalancer Kompose.init _ (Or.inl rfl) (by decide) rfl).2

/-! ## Claims on the Ingress exposure -/

/-- C11: for a binding exposed through an Ingress and correlated to a Service, the step
registers the Ingress and then one network policy (when the slug is cut and the engine accepts
both): policy type Ingress, pod selector equal to the labels of the Service, a single rule on
the port and protocol of the binding (the protocol being what the accessor `p.Protocol()`
yields: `"TCP"` for a binding that leaves it empty) whose only peer selects the declared
ingress namespace and the declared ingress pod labels; no peer of the policy has an
`ipBlock`. -/
theorem ingress_policy_from_controller (env : Env) (args : KomposeArgsRaw)
    (res : List LiveService) (i j : Nat) (rawName : String) (pb : PortBinding)
    (loc : Correlation) (svc : LiveService) (slug : String) (kmp : Kompose)
    (hexp : pb.ExposeType = ExposeIngress)
    (hsvc : locateService res rawName pb = Except.ok (some svc))
    (hslug : ingressSlug env args.Identity rawName pb = Except.ok slug)
    (hing : env.reject (Resource.ingress ("kmp-ing-" ++ rawName ++ "-" ++ toString j)
      (ingressArgs args rawName svc pb slug)) = none)
    (hpol : env.reject (Resource.networkPolicy ("emp-ntp-" ++ rawName ++ "-" ++ toString i)
      (ingressPolicy args rawName svc pb)) = none) :
    ((exposeBinding env args res i rawName j pb loc).run.run kmp).2.registered
      = kmp.registered ++
        [Resource.ingress ("kmp-ing-" ++ rawName ++ "-" ++ toString j)
            (ingressArgs args rawName svc pb slug),
          Resource.networkPolicy ("emp-ntp-" ++ rawName ++ "-" ++ toString i)
            (ingressPolicy args rawName svc pb)] ∧
    ((exposeBinding env args res i rawName j pb loc).run.run kmp).2.ntps
      = kmp.ntps ++ [ingressPolicy args rawName svc pb] ∧
    (ingressPolicy args rawName svc pb).Spec =
      { PodSelector := { MatchLabels := svc.Labels },
        PolicyTypes := ["Ingress"],
        Ingress :=
          [{ From := [{ IpBlock := none,
                        NamespaceSelector := some
                          { MatchLabels :=
                              [("kubernetes.io/metadata.name", args.IngressNamespace)] },
                        PodSelector := some { MatchLabels := args.IngressLabels } }],
             Ports := [{ Port := pb.Port, Protocol := pb.protocol }] }],
        Egress := [] } ∧
    (∀ rule ∈ (ingressPolicy args rawName svc pb).Spec.Ingress, ∀ peer ∈ rule.From,
      peer.IpBlock = none) ∧
    (pb.Protocol = "" → pb.protocol = "TCP") ∧
    (pb.Protocol ≠ "" → pb.protocol = pb.Protocol) := by
  refine ⟨?_, ?_, rfl, ?_, ?_, ?_⟩
  · simp only [exposeBinding, hsvc, hexp, hslug, create, hing, hpol]
    simp [ExceptT.run, StateT.run, bind, ExceptT.bind, ExceptT.mk, ExceptT.bindCont,
      StateT.bind, modify, modifyGet, MonadStateOf.modifyGet, StateT.modifyGet, pure,
      ExceptT.pure, StateT.pure, liftM, monadLift, MonadLift.monadLift, ExceptT.lift,
      StateT.map, Functor.map]
  · simp only [exposeBinding, hsvc, hexp, hslug, create, hing, hpol]
    simp [ExceptT.run, StateT.run, bind, ExceptT.bind, ExceptT.mk, ExceptT.bindCont,
      StateT.bind, modify, modifyGet, MonadStateOf.modifyGet, StateT.modifyGet, pure,
      ExceptT.pure, StateT.pure, liftM, monadLift, MonadLift.monadLift, ExceptT.lift,
      StateT.map, Functor.map]
  · intro rule hrule peer hpeer
    simp only [ingressPolicy, List.mem_singleton] at hrule
    subst hrule
    simp only [List.mem_singleton] at hpeer
    subst hpeer
    rfl
  · intro h
    simp [PortBinding.protocol, h]
  · intro h
    simp [PortBinding.protocol, h]

/-- C11, instance: container `node` bound on 3000 through an Ingress with the protocol left
empty, correlated to the Service `node` of a cluster whose ingress controller runs in
`ingress-nginx`; the step registers the policy `emp-ntp-a0b1c2d3-node-3000-tcp` on 3000/TCP
from that controller. -/
theorem ingress_policy_from_controller_witness :
    ((exposeBinding clusterEnv
        { vipOnlyArgs [("node", [binding 3000 ExposeIngress])] with
          IngressNamespace := "ingress-nginx",
          IngressLabels := [("app.kubernetes.io/name", "ingress-nginx")] }
        [{ Name := "node", Labels := [("io.kompose.service", "node")],
           Spec := { ServiceType := some "ClusterIP",
                     Ports := [{ Port := 3000, Protocol := some "TCP", NodePort := none }],
                     ExternalIPs := [] } }]
        0 "node" 0 (binding 3000 ExposeIngress)
        { svcs := [], svcSpecs := [], ings := [], ingSpecs := [] }).run.run
          Kompose.init).2.ntps
      = Kompose.init.ntps ++
        [{ Metadata :=
             { Labels := [("io.kompose.service", "node")],
               Name := some "emp-ntp-a0b1c2d3-node-3000-tcp",
               Namespace := some "a0b1c2d3", Annotations := [] },
           Spec :=
             { PodSelector := { MatchLabels := [("io.kompose.service", "node")] },
               PolicyTypes := ["Ingress"],
               Ingress :=
                 [{ From := [{ IpBlock := none,
                               NamespaceSelector := some
                                 { MatchLabels :=
                                     [("kubernetes.io/metadata.name", "ingress-nginx")] },
                               PodSelector := some
                                 { MatchLabels :=
                                     [("app.kubernetes.io/name", "ingress-nginx")] } }],
                    Ports := [{ Port := 3000, Protocol := "TCP" }] }],
               Egress := [] } }] :=
  (ingress_policy_from_controller clusterEnv
    { vipOnlyArgs [("node", [binding 3000 ExposeIngress])] with
      IngressNamespace := "ingress-nginx",
      IngressLabels := [("app.kubernetes.io/name", "ingress-nginx")] }
    [{ Name := "node", Labels := [("io.kompose.service", "node")],
       Spec := { ServiceType := some "ClusterIP",
                 Ports := [{ Port := 3000, Protocol := some "TCP", NodePort := none }],
                 ExternalIPs := [] } }]
    0 0 "node" (binding 3000 ExposeIngress)
    { svcs := [], svcSpecs := [], ings := [], ingSpecs := [] }
    { Name := "node", Labels := [("io.kompose.service", "node")],
      Spec := { ServiceType := some "ClusterIP",
                Ports := [{ Port := 3000, Protocol := some "TCP", NodePort := none }],
                ExternalIPs := [] } }
    "a0b1c2d3" Kompose.init rfl rfl rfl rfl rfl).2.1

/-- The slug is cut exactly when the identity is not longer than the hash. -/
theorem ingressSlug_eq (env : Env) (id name : String) (pb : PortBinding) :
    ingressSlug env id name pb =
      if id.utf8ByteSize ≤ (env.randName
          (id ++ "-" ++ name ++ "-" ++ toString pb.Port ++ "/"
            ++ protOrTCP pb.Protocol)).utf8ByteSize then
        Except.ok (String.mk ((env.randName
          (id ++ "-" ++ name ++ "-" ++ toString pb.Port ++ "/"
            ++ protOrTCP pb.Protocol)).data.take id.utf8ByteSize))
      else Except.error (Failure.panic "slice bounds out of range") := rfl

theorem utf8ByteSize_replicate (n : Nat) :
    (String.mk (List.replicate n 'a')).utf8ByteSize = n := by
  induction n with
  | zero => rfl
  | succ n ih =>
    have h : (String.mk (List.replicate (n + 1) 'a')).utf8ByteSize
        = (String.mk (List.replicate n 'a')).utf8ByteSize + 1 := by
      simp only [List.replicate_succ, String.utf8ByteSize, String.utf8ByteSize.go]
      rfl
    rw [h, ih]

/-- Whatever the hash is, when its output is never longer than `bound` the slice panics for an
identity of `bound + 1` characters. -/
theorem ingressSlug_panics_of_bounded_hash (env : Env) (bound : Nat)
    (hbound : ∀ seed, (env.randName seed).utf8ByteSize ≤ bound) (name : String)
    (pb : PortBinding) :
    ingressSlug env (String.mk (List.replicate (bound + 1) 'a')) name pb
      = Except.error (Failure.panic "slice bounds out of range") := by
  rw [ingressSlug_eq, utf8ByteSize_replicate]
  have := hbound (String.mk (List.replicate (bound + 1) 'a') ++ "-" ++ name ++ "-"
    ++ toString pb.Port ++ "/" ++ protOrTCP pb.Protocol)
  rw [if_neg (by omega)]

set_option maxRecDepth 20000 in
/-- C12, the code at the failing input: with a hash of 40 characters and an identity of 41
characters the slice `randName(seed)[:len(id)]` is out of range; the slug is not cut, and
`NewKompose` on an Ingress binding of `node` ends in that panic instead of a host. With the
identity `a0b1c2d3` the same binding gets a slug of 8 characters and the host
`<slug>.24hiut25.ctfer.io`. For any hash of bounded length some identity makes the slice
panic. -/
theorem ingressSlug_panics_on_long_identity :
    longIdentity.length = 41 ∧
    (∀ seed, (digestEnv.randName seed).length = 40) ∧
    ingressSlug digestEnv longIdentity "node" (binding 3000 ExposeIngress)
      = Except.error (Failure.panic "slice bounds out of range") ∧
    (runNewKompose digestEnv "kmp-test"
        (some { vipOnlyArgs [("node", [binding 3000 ExposeIngress])] with
                  Identity := longIdentity })).1
      = Except.error (Failure.panic "slice bounds out of range") ∧
    (∀ (env : Env) (bound : Nat), (∀ seed, (env.randName seed).utf8ByteSize ≤ bound) →
      ∀ (name : String) (pb : PortBinding),
        ingressSlug env (String.mk (List.replicate (bound + 1) 'a')) name pb
          = Except.error (Failure.panic "slice bounds out of range")) ∧
    (∃ slug, ingressSlug digestEnv "a0b1c2d3" "node" (binding 3000 ExposeIngress)
        = Except.ok slug ∧ slug.length = 8 ∧
      ∀ svc, (ingressArgs (vipOnlyArgs [("node", [binding 3000 ExposeIngress])]) "node" svc
          (binding 3000 ExposeIngress) slug).Spec.Host
        = some (slug ++ ".24hiut25.ctfer.io")) := by
  refine ⟨by decide, ?_, by rfl, by rfl, ?_, ?_⟩
  · intro seed
    simp [digestEnv, digest40, String.length]
  · intro env bound hbound name pb
    exact ingressSlug_panics_of_bounded_hash env bound hbound name pb
  · exact ⟨_, rfl, by decide, fun _ => rfl⟩

/-! ## Claims on the generated names -/

theorem dash_not_mem_int {port : Int} (h : 0 ≤ port) : '-' ∉ (toString port).data := by
  rw [toString_int_data]
  cases port with
  | ofNat m =>
    intro hm
    have := toDigits_mem m _ hm
    revert this; decide
  | negSucc m => exact absurd h (by simp [Int.negSucc_lt_zero])

/-- The code never finds a `string` in the label: both names are built without it. -/
theorem ntpName_eq (id : String) (label : Option String) (name : String) (port : Int)
    (protocol : String) :
    ntpName id label name port protocol =
      "emp-ntp-" ++ id ++ "-" ++ name ++ "-" ++ toString port ++ "-" ++ lowerProt protocol := by
  cases label <;> rfl

theorem ingName_eq (id : String) (label : Option String) (name : String) :
    ingName id label name = "emp-ing-" ++ id ++ "-" ++ name := by
  cases label <;> rfl

/-- C13, as stated, fails: identity `a-b` with container `c` and identity `a` with container
`b-c` are different tuples, and both get the policy name `emp-ntp-a-b-c-80-tcp`. -/
theorem ntpName_collision :
    (("a-b", (none : Option String), "c", (80 : Int), "TCP")
      ≠ ("a", (none : Option String), "b-c", (80 : Int), "TCP")) ∧
    ntpName "a-b" none "c" 80 "TCP" = "emp-ntp-a-b-c-80-tcp" ∧
    ntpName "a" none "b-c" 80 "TCP" = "emp-ntp-a-b-c-80-tcp" := by
  refine ⟨by decide, by decide, by decide⟩

/-- C13, amended: the policy name is a function of the tuple, and two tuples with the same
label whose identities contain no `-`, whose ports are not negative and whose protocol
segments (the protocol, `"TCP"` when empty, lower-cased) contain no `-` get different names as
soon as they differ in identity, container name, port or protocol segment. -/
theorem ntpName_injective (label : Option String) (id1 id2 name1 name2 : String)
    (port1 port2 : Int) (prot1 prot2 : String)
    (hid1 : '-' ∉ id1.data) (hid2 : '-' ∉ id2.data)
    (hport1 : 0 ≤ port1) (hport2 : 0 ≤ port2)
    (hprot1 : '-' ∉ (lowerProt prot1).data) (hprot2 : '-' ∉ (lowerProt prot2).data)
    (h : ntpName id1 label name1 port1 prot1 = ntpName id2 label name2 port2 prot2) :
    id1 = id2 ∧ name1 = name2 ∧ port1 = port2 ∧ lowerProt prot1 = lowerProt prot2 := by
  rw [ntpName_eq, ntpName_eq] at h
  have h' := congrArg String.data h
  simp only [String.data_append, List.append_assoc] at h'
  simp only [List.cons_append, List.nil_append, List.cons.injEq, true_and] at h'
  obtain ⟨hid, hrest⟩ := append_sep_inj hid1 hid2 h'
  have hrev := congrArg List.reverse hrest
  simp only [List.reverse_append, List.reverse_cons, List.append_assoc, List.nil_append,
    List.cons_append, List.reverse_nil] at hrev
  have hp1 : '-' ∉ (lowerProt prot1).data.reverse := by simpa using hprot1
  have hp2 : '-' ∉ (lowerProt prot2).data.reverse := by simpa using hprot2
  obtain ⟨hprot, hrest2⟩ := append_sep_inj hp1 hp2 hrev
  have hd1 : '-' ∉ (toString port1).data.reverse := by simpa using dash_not_mem_int hport1
  have hd2 : '-' ∉ (toString port2).data.reverse := by simpa using dash_not_mem_int hport2
  obtain ⟨hport, hname⟩ := append_sep_inj hd1 hd2 hrest2
  refine ⟨String.ext hid, String.ext (List.reverse_injective hname),
    toString_int_inj (String.ext (List.reverse_injective hport)),
    String.ext (List.reverse_injective hprot)⟩

/-- C13, instance: for the identity `a0b1c2d3`, the policies of `node` on 3000 with the protocol
left empty and with `"TCP"` share their name, and their protocol segments are equal. -/
theorem ntpName_injective_witness :
    ntpName "a0b1c2d3" none "node" 3000 "" = ntpName "a0b1c2d3" none "node" 3000 "TCP" ∧
    lowerProt "" = lowerProt "TCP" :=
  ⟨by decide,
    (ntpName_injective none "a0b1c2d3" "a0b1c2d3" "node" "node" 3000 3000 "" "TCP"
      (by decide) (by decide) (by decide) (by decide) (by decide) (by decide)
      (by decide)).2.2.2⟩

/-- C15, the code at the failing input: with the label `prod` present and not empty, the names
are built without it, `emp-ntp-a0b1c2d3-node-3000-tcp` and `emp-ing-a0b1c2d3-node`: the value
handed to the callback is a `*string`, on which the assertion `.(string)` does not hold. For
every label the names are those of an absent label. -/
theorem names_ignore_label :
    (GoValue.strPtr (some "prod")).assertString = none ∧
    ntpName "a0b1c2d3" (some "prod") "node" 3000 "" = "emp-ntp-a0b1c2d3-node-3000-tcp" ∧
    ingName "a0b1c2d3" (some "prod") "node" = "emp-ing-a0b1c2d3-node" ∧
    (∀ (id : String) (label : Option String) (name : String) (port : Int) (protocol : String),
      ntpName id label name port protocol = ntpName id none name port protocol ∧
      ingName id label name = ingName id none name) := by
  refine ⟨rfl, by decide, by decide, ?_⟩
  intro id label name port protocol
  cases label <;> exact ⟨rfl, rfl⟩

/-! ## Claims on correlation -/

theorem locateService_fold_none (rawName : String) (pb : PortBinding) :
    ∀ (res : List LiveService) (init : Option LiveService),
      (∀ s ∈ res, s.Spec.Ports ≠ []) → (∀ s ∈ res, ¬ liveMatches s rawName pb) →
      res.foldlM
        (fun svc s =>
          match s.Spec.Ports with
          | [] => Except.error (Failure.panic "index out of range [0] with length 0")
          | p0 :: _ =>
            let svcProt := match p0.Protocol with
              | some prot => prot
              | none => "TCP"
            if s.Name = rawName ∧ p0.Port = pb.Port ∧ svcProt = protOrTCP pb.Protocol then
              Except.ok (some s)
            else Except.ok svc)
        init = Except.ok init := by
  intro res
  induction res with
  | nil => intro init _ _; rfl
  | cons s res ih =>
    intro init hports hno
    rw [List.foldlM_cons]
    have hs := hports s (List.mem_cons_self _ _)
    have hn := hno s (List.mem_cons_self _ _)
    cases hp : s.Spec.Ports with
    | nil => exact absurd hp hs
    | cons p0 rest =>
      have hfalse : ¬ (s.Name = rawName ∧ p0.Port = pb.Port ∧
          (match p0.Protocol with
            | some prot => prot
            | none => "TCP") = protOrTCP pb.Protocol) := by
        rintro ⟨h1, h2, h3⟩
        exact hn ⟨h1, p0, by rw [hp]; exact List.mem_cons_self _ _, h2, h3⟩
      simp only [hfalse, if_false]
      exact ih init (fun t ht => hports t (List.mem_cons_of_mem _ ht))
        (fun t ht => hno t (List.mem_cons_of_mem _ ht))

theorem locateService_none (res : List LiveService) (rawName : String) (pb : PortBinding)
    (hports : ∀ s ∈ res, s.Spec.Ports ≠ [])
    (hno : ∀ s ∈ res, ¬ liveMatches s rawName pb) :
    locateService res rawName pb = Except.ok none :=
  locateService_fold_none rawName pb res none hports hno

/-- C16, as stated, fails: provisioning the test manifest with a binding on container `redis`,
which no converted Service and no Service of the cluster matches, returns without error; the
binding is skipped and no exposure policy is created. -/
theorem provision_skips_unmatched_binding :
    (∀ svc ∈ servicesOf vipOnlyObjects, svc.Name ≠ "redis") ∧
    locateService
        (clusterEnv.cgResources (vipOnlyObjects.map (transformChild clusterEnv
          (vipOnlyArgs [("redis", [binding 6379 ExposeNodePort])]))))
        "redis" (binding 6379 ExposeNodePort) = Except.ok none ∧
    ((provision clusterEnv (vipOnlyArgs [("redis", [binding 6379 ExposeNodePort])])).run.run
        Kompose.init).1 = Except.ok () ∧
    ((provision clusterEnv (vipOnlyArgs [("redis", [binding 6379 ExposeNodePort])])).run.run
        Kompose.init).2.ntps = [] := by
  refine ⟨by decide, rfl, rfl, by decide⟩

/-- C16, amended: during exposure resolution, a declared binding for which no Service among the
resources of the ConfigGroup carries the container name with the port and protocol of the
binding (every Service having at least one port) creates no exposure resource and is skipped
without error: the step returns normally with the state and the maps unchanged, and the loop
goes on with the next binding. -/
theorem exposeBinding_skips_unmatched (env : Env) (args : KomposeArgsRaw)
    (res : List LiveService) (i j : Nat) (rawName : String) (pb : PortBinding)
    (rest : List PortBinding) (loc : Correlation) (kmp : Kompose)
    (hports : ∀ s ∈ res, s.Spec.Ports ≠ [])
    (hno : ∀ s ∈ res, ¬ liveMatches s rawName pb) :
    (exposeBinding env args res i rawName j pb loc).run.run kmp = (Except.ok loc, kmp) ∧
    (exposeBindings env args res i rawName j (pb :: rest) loc).run.run kmp
      = (exposeBindings env args res i rawName (j + 1) rest loc).run.run kmp := by
  have hloc := locateService_none res rawName pb hports hno
  have hstep : exposeBinding env args res i rawName j pb loc = pure loc := by
    simp only [exposeBinding, hloc]
  constructor
  · rw [hstep]; rfl
  · simp only [exposeBindings, hstep]
    rfl

/-- C16, instance: on the cluster of the samples, the binding on `redis` leaves the initial
state untouched. -/
theorem exposeBinding_skips_unmatched_witness :
    (exposeBinding clusterEnv (vipOnlyArgs [("redis", [binding 6379 ExposeNodePort])])
        (clusterEnv.cgResources (vipOnlyObjects.map (transformChild clusterEnv
          (vipOnlyArgs [("redis", [binding 6379 ExposeNodePort])]))))
        0 "redis" 0 (binding 6379 ExposeNodePort)
        { svcs := [], svcSpecs := [], ings := [], ingSpecs := [] }).run.run Kompose.init
      = (Except.ok { svcs := [], svcSpecs := [], ings := [], ingSpecs := [] }, Kompose.init) :=
  (exposeBinding_skips_unmatched clusterEnv
    (vipOnlyArgs [("redis", [binding 6379 ExposeNodePort])])
    (clusterEnv.cgResources (vipOnlyObjects.map (transformChild clusterEnv
      (vipOnlyArgs [("redis", [binding 6379 ExposeNodePort])]))))
    0 0 "redis" (binding 6379 ExposeNodePort) []
    { svcs := [], svcSpecs := [], ings := [], ingSpecs := [] } Kompose.init
    (by decide)
    (by
      have hname : ∀ s ∈ clusterEnv.cgResources (vipOnlyObjects.map (transformChild clusterEnv
          (vipOnlyArgs [("redis", [binding 6379 ExposeNodePort])]))),
          s.Name = "node" ∨ s.Name = "mongo" := by decide
      intro s hs hm
      rcases hname s hs with h | h <;> rw [hm.1] at h <;> exact absurd h (by decide))).1

/-- C17, the code at the failing input: container `web` has one Service with ports 80 and 443
and a NodePort binding on 443. Validation accepts the input and the Service carries the port
of the binding at its second position, yet the search only reads `spec.Ports[0]`: no Service
is located, `NewKompose` returns normally and no policy exposes 443. The same binding on the
first port, 80, is located. -/
theorem locateService_misses_second_port :
    check webEnv.kompose (webArgs [("web", [binding 443 ExposeNodePort])]) = [] ∧
    (∃ s ∈ webEnv.cgResources (webObjects.map (transformChild webEnv
        (webArgs [("web", [binding 443 ExposeNodePort])]))),
      liveMatches s "web" (binding 443 ExposeNodePort)) ∧
    locateService
        (webEnv.cgResources (webObjects.map (transformChild webEnv
          (webArgs [("web", [binding 443 ExposeNodePort])]))))
        "web" (binding 443 ExposeNodePort) = Except.ok none ∧
    (runNewKompose webEnv "kmp-test"
        (some (webArgs [("web", [binding 443 ExposeNodePort])]))).1 = Except.ok () ∧
    (runNewKompose webEnv "kmp-test"
        (some (webArgs [("web", [binding 443 ExposeNodePort])]))).2.ntps = [] ∧
    (runNewKompose webEnv "kmp-test"
        (some (webArgs [("web", [binding 443 ExposeNodePort])]))).2.URLs = [] ∧
    (runNewKompose webEnv "kmp-test"
        (some (webArgs [("web", [binding 80 ExposeNodePort])]))).2.ntps.length = 1 := by
  refine ⟨by decide, ?_, rfl, rfl, by decide, by decide, by decide⟩
  refine ⟨{ Name := "web", Labels := [("io.kompose.service", "web")],
            Spec := { ServiceType := some "NodePort",
                      Ports := [{ Port := 80, Protocol := some "TCP", NodePort := some 30080 },
                                { Port := 443, Protocol := some "TCP",
                                  NodePort := some 30443 }],
                      ExternalIPs := [] } }, by decide, rfl,
    { Port := 443, Protocol := some "TCP", NodePort := some 30443 }, by decide, rfl, rfl⟩

/-! ## Claims on the image pull secrets -/

theorem addSecrets_spec (secrets : List String) : ∀ (acc : List String), acc.Nodup →
    (addSecrets acc secrets).Nodup ∧
      ∀ n, n ∈ addSecrets acc secrets ↔ n ∈ acc ∨ (n ≠ "" ∧ n ∈ secrets) := by
  induction secrets with
  | nil => intro acc h; exact ⟨h, fun n => by simp [addSecrets]⟩
  | cons s secrets ih =>
    intro acc h
    have hstep : addSecrets acc (s :: secrets) =
        addSecrets (if s ≠ "" then (if s ∈ acc then acc else acc ++ [s]) else acc) secrets := rfl
    rw [hstep]
    by_cases hs : s = ""
    · simp only [hs, ne_eq, not_true_eq_false, if_false]
      obtain ⟨h1, h2⟩ := ih acc h
      refine ⟨h1, fun n => ?_⟩
      rw [h2]
      constructor
      · rintro (hn | ⟨hne, hn⟩)
        · exact Or.inl hn
        · exact Or.inr ⟨hne, List.mem_cons_of_mem _ hn⟩
      · rintro (hn | ⟨hne, hn⟩)
        · exact Or.inl hn
        · rcases List.mem_cons.mp hn with heq | hn
          · exact absurd heq hne
          · exact Or.inr ⟨hne, hn⟩
    · simp only [ne_eq, hs, not_false_eq_true, if_true]
      by_cases hmem : s ∈ acc
      · simp only [hmem, if_true]
        obtain ⟨h1, h2⟩ := ih acc h
        refine ⟨h1, fun n => ?_⟩
        rw [h2]
        constructor
        · rintro (hn | ⟨hne, hn⟩)
          · exact Or.inl hn
          · exact Or.inr ⟨hne, List.mem_cons_of_mem _ hn⟩
        · rintro (hn | ⟨hne, hn⟩)
          · exact Or.inl hn
          · rcases List.mem_cons.mp hn with heq | hn
            · exact Or.inl (heq ▸ hmem)
            · exact Or.inr ⟨hne, hn⟩
      · simp only [hmem, if_false]
        have hnd : (acc ++ [s]).Nodup := by
          rw [List.nodup_append]
          refine ⟨h, List.nodup_singleton s, ?_⟩
          intro a ha hb
          simp only [List.mem_singleton] at hb
          exact hmem (hb ▸ ha)
        obtain ⟨h1, h2⟩ := ih (acc ++ [s]) hnd
        refine ⟨h1, fun n => ?_⟩
        rw [h2]
        simp only [List.mem_append, List.mem_cons, List.not_mem_nil, or_false]
        constructor
        · rintro ((hn | hn) | ⟨hne, hn⟩)
          · exact Or.inl hn
          · exact Or.inr ⟨hn ▸ hs, Or.inl hn⟩
          · exact Or.inr ⟨hne, Or.inr hn⟩
        · rintro (hn | ⟨hne, hn | hn⟩)
          · exact Or.inl (Or.inl hn)
          · exact Or.inl (Or.inr hn)
          · exact Or.inr ⟨hne, hn⟩

theorem extract_fold_spec (objs : List RuntimeObject) : ∀ (acc : List String), acc.Nodup →
    (objs.foldl
        (fun secretNames obj =>
          match obj with
          | RuntimeObject.deployment dep =>
            match dep.ImagePullSecrets with
            | some secrets => addSecrets secretNames secrets
            | none => secretNames
          | _ => secretNames)
        acc).Nodup ∧
      ∀ n, n ∈ objs.foldl
          (fun secretNames obj =>
            match obj with
            | RuntimeObject.deployment dep =>
              match dep.ImagePullSecrets with
              | some secrets => addSecrets secretNames secrets
              | none => secretNames
            | _ => secretNames)
          acc ↔
        n ∈ acc ∨ (n ≠ "" ∧ ∃ dep secrets, RuntimeObject.deployment dep ∈ objs ∧
          dep.ImagePullSecrets = some secrets ∧ n ∈ secrets) := by
  induction objs with
  | nil => intro acc h; exact ⟨h, fun n => by simp⟩
  | cons obj objs ih =>
    intro acc h
    rw [List.foldl_cons]
    cases obj with
    | service svc =>
      obtain ⟨h1, h2⟩ := ih acc h
      refine ⟨h1, fun n => ?_⟩
      rw [h2]
      simp
    | other kind =>
      obtain ⟨h1, h2⟩ := ih acc h
      refine ⟨h1, fun n => ?_⟩
      rw [h2]
      simp
    | deployment dep =>
      cases hsec : dep.ImagePullSecrets with
      | none =>
        simp only [hsec]
        obtain ⟨h1, h2⟩ := ih acc h
        refine ⟨h1, fun n => ?_⟩
        rw [h2]
        constructor
        · rintro (hn | ⟨hne, d, secrets, hd, hds, hn⟩)
          · exact Or.inl hn
          · exact Or.inr ⟨hne, d, secrets, List.mem_cons_of_mem _ hd, hds, hn⟩
        · rintro (hn | ⟨hne, d, secrets, hd, hds, hn⟩)
          · exact Or.inl hn
          · rcases List.mem_cons.mp hd with heq | hd
            · cases heq
              rw [hsec] at hds
              cases hds
            · exact Or.inr ⟨hne, d, secrets, hd, hds, hn⟩
      | some secrets =>
        simp only [hsec]
        obtain ⟨ha1, ha2⟩ := addSecrets_spec secrets acc h
        obtain ⟨h1, h2⟩ := ih (addSecrets acc secrets) ha1
        refine ⟨h1, fun n => ?_⟩
        rw [h2, ha2]
        constructor
        · rintro ((hn | ⟨hne, hn⟩) | ⟨hne, d, secrets', hd, hds, hn⟩)
          · exact Or.inl hn
          · exact Or.inr ⟨hne, dep, secrets, List.mem_cons_self _ _, hsec, hn⟩
          · exact Or.inr ⟨hne, d, secrets', List.mem_cons_of_mem _ hd, hds, hn⟩
        · rintro (hn | ⟨hne, d, secrets', hd, hds, hn⟩)
          · exact Or.inl (Or.inl hn)
          · rcases List.mem_cons.mp hd with heq | hd
            · cases heq
              rw [hsec] at hds
              cases hds
              exact Or.inl (Or.inr ⟨hne, hn⟩)
            · exact Or.inr ⟨hne, d, secrets', hd, hds, hn⟩

theorem extract_fold_filter (objs : List RuntimeObject) : ∀ (acc : List String),
    (objs.filter (fun obj =>
        match obj with
        | RuntimeObject.deployment _ => true
        | _ => false)).foldl
      (fun secretNames obj =>
        match obj with
        | RuntimeObject.deployment dep =>
          match dep.ImagePullSecrets with
          | some secrets => addSecrets secretNames secrets
          | none => secretNames
        | _ => secretNames)
      acc =
    objs.foldl
      (fun secretNames obj =>
        match obj with
        | RuntimeObject.deployment dep =>
          match dep.ImagePullSecrets with
          | some secrets => addSecrets secretNames secrets
          | none => secretNames
        | _ => secretNames)
      acc := by
  induction objs with
  | nil => intro acc; rfl
  | cons obj objs ih =>
    intro acc
    cases obj with
    | service svc => simpa [List.filter] using ih acc
    | other kind => simpa [List.filter] using ih acc
    | deployment dep =>
      simp only [List.filter, List.foldl_cons]
      exact ih _

/-- C18: the list `extractImagePullSecrets` returns has no duplicate, and its elements are
exactly the non-empty names in the image pull secrets of the Deployment objects of the list;
objects of other kinds, and Deployments without image pull secrets, add nothing. -/
theorem extractImagePullSecrets_spec (objs : List RuntimeObject) :
    (extractImagePullSecrets objs).Nodup ∧
    (∀ n, n ∈ extractImagePullSecrets objs ↔
      n ≠ "" ∧ ∃ dep secrets, RuntimeObject.deployment dep ∈ objs ∧
        dep.ImagePullSecrets = some secrets ∧ n ∈ secrets) ∧
    extractImagePullSecrets
        (objs.filter (fun obj =>
          match obj with
          | RuntimeObject.deployment _ => true
          | _ => false))
      = extractImagePullSecrets objs := by
  have heq : ∀ l : List RuntimeObject, extractImagePullSecrets l =
      l.foldl
        (fun secretNames obj =>
          match obj with
          | RuntimeObject.deployment dep =>
            match dep.ImagePullSecrets with
            | some secrets => addSecrets secretNames secrets
            | none => secretNames
          | _ => secretNames)
        [] := fun _ => rfl
  obtain ⟨h1, h2⟩ := extract_fold_spec objs [] List.nodup_nil
  refine ⟨by rw [heq]; exact h1, fun n => by rw [heq, h2]; simp, ?_⟩
  rw [heq, heq]
  exact extract_fold_filter objs []

/-! ## Claims on the endpoints -/

theorem mem_mapEntries_keys {β : Type} (m : List (String × β)) (e : String × β)
    (h : e ∈ mapEntries m) : ∃ v, (e.1, v) ∈ m := by
  induction m with
  | nil => simp [mapEntries] at h
  | cons x rest ih =>
    simp only [mapEntries, List.mem_cons, List.mem_filter] at h
    rcases h with h | ⟨h, _⟩
    · exact ⟨x.2, by rw [h]; exact List.mem_cons_self _ _⟩
    · obtain ⟨v, hv⟩ := ih h
      exact ⟨v, List.mem_cons_of_mem _ hv⟩

theorem mapEntries_nodup {β : Type} (m : List (String × β)) :
    ((mapEntries m).map (fun e => e.1)).Nodup := by
  induction m with
  | nil => simp [mapEntries]
  | cons x rest ih =>
    simp only [mapEntries, List.map_cons, List.nodup_cons, List.mem_map, List.mem_filter,
      not_exists, not_and]
    constructor
    · rintro e ⟨_, hne⟩ heq
      simp [heq] at hne
    · exact (ih.sublist ((List.filter_sublist _).map _))

theorem mem_mapEntries_of_get {β : Type} (m : List (String × β)) (k : String) (v : β)
    (h : mapGet m k = some v) : (k, v) ∈ mapEntries m := by
  induction m with
  | nil => simp [mapGet] at h
  | cons x rest ih =>
    obtain ⟨xk, xv⟩ := x
    simp only [mapGet, List.lookup_cons] at h
    simp only [mapEntries, List.mem_cons, List.mem_filter]
    by_cases hk : k = xk
    · subst hk
      simp only [beq_self_eq_true, Option.some.injEq] at h
      left; rw [h]
    · have hb : (k == xk) = false := by simpa using hk
      simp only [hb] at h
      right
      exact ⟨ih h, by simpa using hk⟩

theorem svcUrls_eq (hostname : String) (specs : List (String × ServiceSpec)) :
    svcUrls hostname specs = (mapEntries specs).foldlM (svcUrlStep hostname) [] := by
  unfold svcUrls
  congr 1
  funext urls entry
  simp only [svcUrlStep, svcUrlOf]
  cases entry.2.ServiceType with
  | none => rfl
  | some typ =>
    simp only
    split_ifs
    · cases entry.2.Ports with
      | nil => rfl
      | cons p0 rest => cases hnp : p0.NodePort <;> simp [hnp]
    · cases entry.2.Ports with
      | nil => rfl
      | cons p0 rest =>
        cases hnp : p0.NodePort with
        | none => simp [hnp]
        | some np => cases hip : entry.2.ExternalIPs <;> simp [hnp, hip]
    · rfl

theorem svcUrl_fold (hostname : String) : ∀ (l : List (String × ServiceSpec))
    (acc urls : List (String × String)), (l.map (fun e => e.1)).Nodup →
    l.foldlM (svcUrlStep hostname) acc = Except.ok urls →
    (∀ k, (∀ e ∈ l, e.1 ≠ k) → mapGet urls k = mapGet acc k) ∧
    (∀ e ∈ l, ∃ r, svcUrlOf hostname e.2 = Except.ok r ∧
      mapGet urls e.1 =
        match r with
        | some url => some url
        | none => mapGet acc e.1) := by
  intro l
  induction l with
  | nil =>
    intro acc urls _ h
    simp only [List.foldlM_nil, pure, Except.pure, Except.ok.injEq] at h
    subst h
    exact ⟨fun _ _ => rfl, fun e he => by cases he⟩
  | cons x rest ih =>
    intro acc urls hnd h
    rw [List.foldlM_cons] at h
    simp only [List.map_cons, List.nodup_cons, List.mem_map, not_exists, not_and] at hnd
    obtain ⟨hx, hrest⟩ := hnd
    cases hstep : svcUrlStep hostname acc x with
    | error failure => rw [hstep] at h; cases h
    | ok acc1 =>
      rw [hstep] at h
      have h' : rest.foldlM (svcUrlStep hostname) acc1 = Except.ok urls := h
      obtain ⟨ih1, ih2⟩ := ih acc1 urls hrest h'
      have hxk : ∀ e ∈ rest, e.1 ≠ x.1 := fun e he heq => hx e he heq
      -- what the step does on `x`
      have hacc : ∃ r, svcUrlOf hostname x.2 = Except.ok r ∧
          (∀ k, k ≠ x.1 → mapGet acc1 k = mapGet acc k) ∧
          mapGet acc1 x.1 =
            match r with
            | some url => some url
            | none => mapGet acc x.1 := by
        unfold svcUrlStep at hstep
        cases hr : svcUrlOf hostname x.2 with
        | error failure => rw [hr] at hstep; cases hstep
        | ok r =>
          rw [hr] at hstep
          cases r with
          | none =>
            simp only [Except.ok.injEq] at hstep
            subst hstep
            exact ⟨none, rfl, fun _ _ => rfl, rfl⟩
          | some url =>
            simp only [Except.ok.injEq] at hstep
            subst hstep
            refine ⟨some url, rfl, ?_, ?_⟩
            · intro k hk
              have hb : (k == x.1) = false := by simpa using hk
              simp [mapGet, mapSet, List.lookup_cons, hb]
            · simp [mapGet, mapSet, List.lookup_cons]
      obtain ⟨r, hr, hother, hself⟩ := hacc
      constructor
      · intro k hk
        rw [ih1 k (fun e he => hk e (List.mem_cons_of_mem _ he))]
        exact hother k (fun heq => hk x (List.mem_cons_self _ _) heq.symm)
      · intro e he
        rcases List.mem_cons.mp he with heq | he
        · subst heq
          exact ⟨r, hr, by rw [ih1 e.1 hxk]; exact hself⟩
        · obtain ⟨r', hr', hget⟩ := ih2 e he
          refine ⟨r', hr', ?_⟩
          rw [hget, hother e.1 (hxk e he)]

theorem svcUrl_fold_ok (hostname : String) : ∀ (l : List (String × ServiceSpec))
    (acc : List (String × String)),
    (∀ e ∈ l, ∃ r, svcUrlOf hostname e.2 = Except.ok r) →
    ∃ urls, l.foldlM (svcUrlStep hostname) acc = Except.ok urls := by
  intro l
  induction l with
  | nil => intro acc _; exact ⟨acc, rfl⟩
  | cons x rest ih =>
    intro acc h
    obtain ⟨r, hr⟩ := h x (List.mem_cons_self _ _)
    rw [List.foldlM_cons]
    have hstep : ∃ acc1, svcUrlStep hostname acc x = Except.ok acc1 := by
      unfold svcUrlStep
      rw [hr]
      cases r <;> exact ⟨_, rfl⟩
    obtain ⟨acc1, hacc1⟩ := hstep
    rw [hacc1]
    exact ih acc1 (fun e he => h e (List.mem_cons_of_mem _ he))

theorem locateService_fold_some (rawName : String) (pb : PortBinding) :
    ∀ (res : List LiveService) (init : Option LiveService) (svc : LiveService),
      (∀ s, init = some s → ∃ p0 rest, s.Spec.Ports = p0 :: rest ∧ s.Name = rawName ∧
        p0.Port = pb.Port ∧
        (match p0.Protocol with
          | some prot => prot
          | none => "TCP") = protOrTCP pb.Protocol) →
      res.foldlM
        (fun svc s =>
          match s.Spec.Ports with
          | [] => Except.error (Failure.panic "index out of range [0] with length 0")
          | p0 :: _ =>
            let svcProt := match p0.Protocol with
              | some prot => prot
              | none => "TCP"
            if s.Name = rawName ∧ p0.Port = pb.Port ∧ svcProt = protOrTCP pb.Protocol then
              Except.ok (some s)
            else Except.ok svc)
        init = Except.ok (some svc) →
      ∃ p0 rest, svc.Spec.Ports = p0 :: rest ∧ svc.Name = rawName ∧ p0.Port = pb.Port ∧
        (match p0.Protocol with
          | some prot => prot
          | none => "TCP") = protOrTCP pb.Protocol := by
  intro res
  induction res with
  | nil =>
    intro init svc hinit h
    simp only [List.foldlM_nil, pure, Except.pure, Except.ok.injEq] at h
    exact hinit svc h
  | cons s res ih =>
    intro init svc hinit h
    rw [List.foldlM_cons] at h
    cases hp : s.Spec.Ports with
    | nil => simp only [hp] at h; cases h
    | cons p0 rest =>
      simp only [hp] at h
      by_cases hm : s.Name = rawName ∧ p0.Port = pb.Port ∧
          (match p0.Protocol with
            | some prot => prot
            | none => "TCP") = protOrTCP pb.Protocol
      · simp only [hm, and_self, if_true] at h
        refine ih (some s) svc ?_ h
        intro t ht
        cases ht
        exact ⟨p0, rest, hp, hm.1, hm.2.1, hm.2.2⟩
      · simp only [hm, if_false] at h
        exact ih init svc hinit h

/-- A located Service carries the name of the container, and its first port is the port of
the binding, with its protocol. -/
theorem locateService_some (res : List LiveService) (rawName : String) (pb : PortBinding)
    (svc : LiveService) (h : locateService res rawName pb = Except.ok (some svc)) :
    ∃ p0 rest, svc.Spec.Ports = p0 :: rest ∧ svc.Name = rawName ∧ p0.Port = pb.Port ∧
      (match p0.Protocol with
        | some prot => prot
        | none => "TCP") = protOrTCP pb.Protocol :=
  locateService_fold_some rawName pb res none svc (fun _ hs => by cases hs) h

/-- C19, the code at the failing input: for a LoadBalancer spec whose node port is allocated
and whose list of external addresses is still empty, `svcUrls` reads `spec.ExternalIPs[0]` and
panics, and so does `NewKompose` on a cluster that gave the Service no external address. With
both fields set the endpoint is `<externalAddress>:<nodePort>`, and with the node port missing
no endpoint is surfaced and nothing fails. -/
theorem svcUrls_panics_without_external_address :
    svcUrls "24hiut25.ctfer.io" [("3000/TCP", pendingLoadBalancer)]
      = Except.error (Failure.panic "index out of range [0] with length 0") ∧
    (runNewKompose noExternalIPEnv "kmp-test"
        (some (vipOnlyArgs [("node", [binding 3000 ExposeLoadBalancer])]))).1
      = Except.error (Failure.panic "index out of range [0] with length 0") ∧
    svcUrls "24hiut25.ctfer.io"
        [("3000/TCP", { pendingLoadBalancer with ExternalIPs := ["203.0.113.10"] })]
      = Except.ok [("3000/TCP", "203.0.113.10:33000")] ∧
    svcUrls "24hiut25.ctfer.io"
        [("3000/TCP", { pendingLoadBalancer with
            Ports := [{ Port := 3000, Protocol := some "TCP", NodePort := none }] })]
      = Except.ok [] := by
  refine ⟨rfl, rfl, rfl, rfl⟩

/-- C20: when `svcUrls` runs over the specs recorded for a container, a spec of type NodePort
recorded under a key gets the endpoint `<hostname>:<nodePort>` under that key once the node
port of its first port is allocated, and no entry under that key while it is not; `svcUrls`
does return when every recorded spec is of type NodePort with at least one port. The first
port of a recorded spec is the port the key was correlated on. On the cluster of the samples
the NodePort binding of `node` on 3000 ends with `24hiut25.ctfer.io:33000` under
`3000/TCP`. -/
theorem svcUrls_nodePort (hostname : String) (specs : List (String × ServiceSpec)) :
    (∀ urls, svcUrls hostname specs = Except.ok urls →
      ∀ k spec p0 rest, mapGet specs k = some spec → spec.ServiceType = some "NodePort" →
        spec.Ports = p0 :: rest →
        (∀ np, p0.NodePort = some np →
          mapGet urls k = some (hostname ++ ":" ++ toString np)) ∧
        (p0.NodePort = none → mapGet urls k = none)) ∧
    ((∀ e ∈ specs, e.2.ServiceType = some "NodePort" ∧ e.2.Ports ≠ []) →
      ∃ urls, svcUrls hostname specs = Except.ok urls) ∧
    (∀ (res : List LiveService) (rawName : String) (pb : PortBinding) (svc : LiveService),
      locateService res rawName pb = Except.ok (some svc) →
      ∃ p0 rest, svc.Spec.Ports = p0 :: rest ∧ p0.Port = pb.Port ∧
        (match p0.Protocol with
          | some prot => prot
          | none => "TCP") = protOrTCP pb.Protocol) ∧
    (runNewKompose clusterEnv "kmp-test"
        (some (vipOnlyArgs [("node", [binding 3000 ExposeNodePort])]))).2.URLs
      = [("node", [("3000/TCP", "24hiut25.ctfer.io:33000")])] := by
  refine ⟨?_, ?_, ?_, by decide⟩
  · intro urls hurls k spec p0 rest hget htype hports
    rw [svcUrls_eq] at hurls
    obtain ⟨_, h2⟩ := svcUrl_fold hostname (mapEntries specs) [] urls
      (mapEntries_nodup specs) hurls
    obtain ⟨r, hr, hk⟩ := h2 (k, spec) (mem_mapEntries_of_get specs k spec hget)
    simp only [svcUrlOf, htype, hports, if_true] at hr
    constructor
    · intro np hnp
      rw [hnp] at hr
      simp only [Except.ok.injEq] at hr
      subst hr
      exact hk
    · intro hnone
      rw [hnone] at hr
      simp only [Except.ok.injEq] at hr
      subst hr
      exact hk
  · intro hall
    rw [svcUrls_eq]
    apply svcUrl_fold_ok
    intro e he
    obtain ⟨v, hv⟩ := mem_mapEntries_keys specs e he
    -- the spec of `e` is one of the recorded specs
    have hspec : e ∈ specs := by
      clear hv
      induction specs with
      | nil => simp [mapEntries] at he
      | cons x rest ih =>
        simp only [mapEntries, List.mem_cons, List.mem_filter] at he
        rcases he with he | ⟨he, _⟩
        · rw [he]; exact List.mem_cons_self _ _
        · exact List.mem_cons_of_mem _ (ih (fun e' he' => hall e' (List.mem_cons_of_mem _ he')) he)
    obtain ⟨htype, hports⟩ := hall e hspec
    cases hp : e.2.Ports with
    | nil => exact absurd hp hports
    | cons p0 rest =>
      simp only [svcUrlOf, htype, hp, if_true]
      cases p0.NodePort <;> exact ⟨_, rfl⟩
  · intro res rawName pb svc h
    obtain ⟨p0, rest, h1, _, h2, h3⟩ := locateService_some res rawName pb svc h
    exact ⟨p0, rest, h1, h2, h3⟩

/-! ## Steps and the registered resources -/

theorem run_bind {α β : Type} (x : Step α) (f : α → Step β) (kmp : Kompose) :
    (x >>= f).run.run kmp =
      match x.run.run kmp with
      | (Except.ok a, kmp1) => (f a).run.run kmp1
      | (Except.error failure, kmp1) => (Except.error failure, kmp1) := by
  simp only [ExceptT.run, bind, ExceptT.bind, ExceptT.mk, ExceptT.bindCont, StateT.bind,
    StateT.run]
  rcases x kmp with ⟨r, kmp1⟩
  cases r <;> rfl

theorem run_pure {α : Type} (a : α) (kmp : Kompose) :
    (pure a : Step α).run.run kmp = (Except.ok a, kmp) := rfl

theorem run_throw {α : Type} (failure : Failure) (kmp : Kompose) :
    (throw failure : Step α).run.run kmp = (Except.error failure, kmp) := rfl

theorem run_modify (f : Kompose → Kompose) (kmp : Kompose) :
    (modify f : Step PUnit).run.run kmp = (Except.ok PUnit.unit, f kmp) := rfl

theorem run_create_accept (env : Env) (r : Resource) (kmp : Kompose)
    (h : env.reject r = none) :
    (create env r).run.run kmp
      = (Except.ok (), { kmp with registered := kmp.registered ++ [r] }) := by
  simp only [create, h]
  rfl

theorem run_create_reject (env : Env) (r : Resource) (kmp : Kompose) (err : String)
    (h : env.reject r = some err) :
    (create env r).run.run kmp = (Except.error (Failure.error [err]), kmp) := by
  simp only [create, h]
  rfl

theorem appendsOnly_pure {α : Type} (a : α) : appendsOnly (pure a : Step α) :=
  fun kmp => ⟨[], by rw [run_pure]; simp⟩

theorem appendsOnly_throw {α : Type} (failure : Failure) :
    appendsOnly (throw failure : Step α) :=
  fun kmp => ⟨[], by rw [run_throw]; simp⟩

theorem appendsOnly_modify (f : Kompose → Kompose)
    (h : ∀ kmp, (f kmp).registered = kmp.registered) :
    appendsOnly (modify f : Step PUnit) :=
  fun kmp => ⟨[], by rw [run_modify]; simp [h]⟩

theorem appendsOnly_create (env : Env) (r : Resource) : appendsOnly (create env r) := by
  intro kmp
  cases h : env.reject r with
  | none => exact ⟨[r], by rw [run_create_accept env r kmp h]⟩
  | some err => exact ⟨[], by rw [run_create_reject env r kmp err h]; simp⟩

theorem appendsOnly_bind {α β : Type} (x : Step α) (f : α → Step β)
    (hx : appendsOnly x) (hf : ∀ a, appendsOnly (f a)) : appendsOnly (x >>= f) := by
  intro kmp
  rw [run_bind]
  obtain ⟨rest1, h1⟩ := hx kmp
  rcases hrun : x.run.run kmp with ⟨r, kmp1⟩
  rw [hrun] at h1
  cases r with
  | error failure => exact ⟨rest1, h1⟩
  | ok a =>
    obtain ⟨rest2, h2⟩ := hf a kmp1
    refine ⟨rest1 ++ rest2, ?_⟩
    simp only at h1 ⊢
    rw [h2, h1, List.append_assoc]

theorem appendsOnly_copySecrets (env : Env) (args : KomposeArgsRaw) (names : List String) :
    appendsOnly (copySecrets env args names) := by
  induction names with
  | nil => exact appendsOnly_pure ()
  | cons name rest ih =>
    unfold copySecrets
    simp only
    split
    · exact appendsOnly_bind _ _ (appendsOnly_create env _) (fun _ => ih)
    · exact ih

theorem appendsOnly_exposeBinding (env : Env) (args : KomposeArgsRaw)
    (res : List LiveService) (i j : Nat) (rawName : String) (pb : PortBinding)
    (loc : Correlation) : appendsOnly (exposeBinding env args res i rawName j pb loc) := by
  unfold exposeBinding
  split
  · exact appendsOnly_throw _
  · exact appendsOnly_pure _
  · refine appendsOnly_bind _ _ ?_ (fun _ => appendsOnly_bind _ _
      (appendsOnly_modify _ (fun _ => rfl)) (fun _ => appendsOnly_pure _))
    split
    · exact appendsOnly_bind _ _ (appendsOnly_create env _) (fun _ => appendsOnly_bind _ _
        (appendsOnly_modify _ (fun _ => rfl)) (fun _ => appendsOnly_pure _))
    · exact appendsOnly_bind _ _ (appendsOnly_create env _) (fun _ => appendsOnly_bind _ _
        (appendsOnly_modify _ (fun _ => rfl)) (fun _ => appendsOnly_pure _))
    · split
      · exact appendsOnly_throw _
      · exact appendsOnly_bind _ _ (appendsOnly_create env _) (fun _ => appendsOnly_bind _ _
          (appendsOnly_create env _) (fun _ => appendsOnly_bind _ _
            (appendsOnly_modify _ (fun _ => rfl)) (fun _ => appendsOnly_pure _)))
    · exact appendsOnly_pure _

theorem appendsOnly_exposeBindings (env : Env) (args : KomposeArgsRaw)
    (res : List LiveService) (i : Nat) (rawName : String) (pbs : List PortBinding) :
    ∀ (j : Nat) (loc : Correlation),
      appendsOnly (exposeBindings env args res i rawName j pbs loc) := by
  induction pbs with
  | nil => intro j loc; exact appendsOnly_pure ()
  | cons pb rest ih =>
    intro j loc
    unfold exposeBindings
    exact appendsOnly_bind _ _ (appendsOnly_exposeBinding env args res i j rawName pb loc)
      (fun loc1 => ih (j + 1) loc1)

theorem appendsOnly_exposeContainers (env : Env) (args : KomposeArgsRaw)
    (res : List LiveService) (names : List String) :
    ∀ (i : Nat), appendsOnly (exposeContainers env args res i names) := by
  induction names with
  | nil => intro i; exact appendsOnly_pure ()
  | cons name rest ih =>
    intro i
    unfold exposeContainers
    exact appendsOnly_bind _ _ (appendsOnly_exposeBindings env args res i name _ 0 _)
      (fun _ => ih (i + 1))

theorem run_createPolicies_accept (env : Env) (pols : List (String × NetworkPolicyArgs)) :
    ∀ (kmp : Kompose),
      (∀ p ∈ pols, env.reject (Resource.networkPolicy p.1 p.2) = none) →
      (createPolicies env pols).run.run kmp
        = (Except.ok (),
            { kmp with registered :=
                kmp.registered ++ pols.map (fun p => Resource.networkPolicy p.1 p.2) }) := by
  induction pols with
  | nil =>
    intro kmp _
    simp only [createPolicies, List.map_nil, List.append_nil]
    rfl
  | cons p rest ih =>
    intro kmp h
    obtain ⟨logical, pol⟩ := p
    unfold createPolicies
    rw [run_bind, run_create_accept env _ kmp (h (logical, pol) (List.mem_cons_self _ _))]
    simp only
    rw [ih _ (fun q hq => h q (List.mem_cons_of_mem _ hq))]
    simp

/-! ## Claims on the baseline policies -/

/-- C22: when the engine accepts the namespace and the baseline policies, provisioning registers
the namespace and then the same six policies, whatever the port bindings, the exposure types
and the other arguments are; everything else comes after them. The six policies depend on the
identity only: all select every pod of the namespace named after the identity; they are
deny-all egress, allow-all ingress, egress to the pods of the namespace, egress to
`kube-system` on 53/UDP, the same on 53/TCP, and egress to `0.0.0.0/0` except `10.0.0.0/8`,
`172.16.0.0/12`, `192.168.0.0/16` and `198.18.0.0/15`. -/
theorem provision_baseline (env : Env) (args : KomposeArgsRaw) (kmp : Kompose)
    (hns : env.reject (Resource.ns "ns" (namespaceMeta args)) = none)
    (hpol : ∀ p ∈ baselinePolicies args.Identity,
      env.reject (Resource.networkPolicy p.1 p.2) = none) :
    (∃ rest, ((provision env args).run.run kmp).2.registered
      = kmp.registered ++ Resource.ns "ns" (namespaceMeta args)
          :: (baselinePolicies args.Identity).map (fun p => Resource.networkPolicy p.1 p.2)
          ++ rest) ∧
    (∀ args2 : KomposeArgsRaw, args2.Identity = args.Identity →
      baselinePolicies args2.Identity = baselinePolicies args.Identity) ∧
    (baselinePolicies args.Identity).map (fun p => p.1)
      = ["deny-all", "allow-same-namespace-ingress", "allow-same-namespace-egress",
          "allow-dns-udp", "allow-dns-tcp", "allow-internet-all"] ∧
    (∀ p ∈ baselinePolicies args.Identity,
      p.2.Metadata.Namespace = some args.Identity ∧ p.2.Spec.PodSelector = { MatchLabels := [] }) ∧
    (baselinePolicies args.Identity).map
        (fun p => (p.2.Spec.PolicyTypes, p.2.Spec.Ingress, p.2.Spec.Egress))
      = [(["Egress"], [], []),
          (["Ingress"], [{ From := [], Ports := [] }], []),
          (["Egress"], [],
            [{ To := [{ IpBlock := none, NamespaceSelector := none,
                        PodSelector := some { MatchLabels := [] } }],
               Ports := [] }]),
          (["Egress"], [],
            [{ To := [{ IpBlock := none,
                        NamespaceSelector := some
                          { MatchLabels := [("kubernetes.io/metadata.name", "kube-system")] },
                        PodSelector := none }],
               Ports := [{ Port := 53, Protocol := "UDP" }] }]),
          (["Egress"], [],
            [{ To := [{ IpBlock := none,
                        NamespaceSelector := some
                          { MatchLabels := [("kubernetes.io/metadata.name", "kube-system")] },
                        PodSelector := none }],
               Ports := [{ Port := 53, Protocol := "TCP" }] }]),
          (["Egress"], [],
            [{ To := [{ IpBlock := some
                          { Cidr := "0.0.0.0/0",
                            Except := ["10.0.0.0/8", "172.16.0.0/12", "192.168.0.0/16",
                                       "198.18.0.0/15"] },
                        NamespaceSelector := none, PodSelector := none }],
               Ports := [] }])] := by
  refine ⟨?_, fun args2 h => by rw [h], rfl, ?_, rfl⟩
  · have hrest : appendsOnly
        (match env.kompose args.YAML args.Identity with
          | Except.error err => (throw (Failure.error [err]) : Step Unit)
          | Except.ok objs => do
            copySecrets env args (extractImagePullSecrets objs)
            match env.kompose args.YAML args.Identity with
            | Except.error err => throw (Failure.panic err)
            | Except.ok objs =>
              let children := objs.map (transformChild env args)
              create env (Resource.configGroup "kompose" children)
              exposeContainers env args (env.cgResources children) 0
                (args.Ports.map (fun e => e.1))) := by
      split
      · exact appendsOnly_throw _
      · refine appendsOnly_bind _ _ (appendsOnly_copySecrets env args _) (fun _ => ?_)
        split
        · exact appendsOnly_throw _
        · exact appendsOnly_bind _ _ (appendsOnly_create env _)
            (fun _ => appendsOnly_exposeContainers env args _ _ 0)
    unfold provision
    rw [run_bind, run_create_accept env _ kmp hns]
    simp only
    rw [run_bind, run_createPolicies_accept env _ _ hpol]
    simp only
    obtain ⟨rest, h⟩ := hrest
      { kmp with registered := kmp.registered ++ [Resource.ns "ns" (namespaceMeta args)]
          ++ (baselinePolicies args.Identity).map (fun p => Resource.networkPolicy p.1 p.2) }
    refine ⟨rest, ?_⟩
    rw [h]
    simp
  · intro p hp
    simp only [baselinePolicies, List.mem_cons, List.mem_singleton, List.not_mem_nil,
      or_false] at hp
    rcases hp with h | h | h | h | h | h <;> subst h <;> exact ⟨rfl, rfl⟩

/-- C22, instance: on the cluster of the samples, the run with an Internal binding and the run
with a NodePort and an Ingress binding register the same six baseline policies. -/
theorem provision_baseline_witness :
    (policyLogicalNames ((provision clusterEnv
        (vipOnlyArgs [("node", [binding 3000 ExposeInternal])])).run.run
          Kompose.init).2.registered).take 6
      = ["deny-all", "allow-same-namespace-ingress", "allow-same-namespace-egress",
          "allow-dns-udp", "allow-dns-tcp", "allow-internet-all"] ∧
    ∃ rest, ((provision clusterEnv
        (vipOnlyArgs [("node", [binding 3000 ExposeNodePort, binding 3000 ExposeIngress])])
          ).run.run Kompose.init).2.registered
      = Kompose.init.registered
          ++ Resource.ns "ns" (namespaceMeta
              (vipOnlyArgs [("node", [binding 3000 ExposeNodePort, binding 3000 ExposeIngress])]))
          :: (baselinePolicies "a0b1c2d3").map (fun p => Resource.networkPolicy p.1 p.2)
          ++ rest :=
  ⟨by decide,
    (provision_baseline clusterEnv
      (vipOnlyArgs [("node", [binding 3000 ExposeNodePort, binding 3000 ExposeIngress])])
      Kompose.init rfl (fun _ _ => rfl)).1⟩

/-! ## Claims on the Internal bindings -/

theorem locateService_fold_mem (rawName : String) (pb : PortBinding) :
    ∀ (res : List LiveService) (init : Option LiveService) (svc : LiveService),
      res.foldlM
        (fun svc s =>
          match s.Spec.Ports with
          | [] => Except.error (Failure.panic "index out of range [0] with length 0")
          | p0 :: _ =>
            let svcProt := match p0.Protocol with
              | some prot => prot
              | none => "TCP"
            if s.Name = rawName ∧ p0.Port = pb.Port ∧ svcProt = protOrTCP pb.Protocol then
              Except.ok (some s)
            else Except.ok svc)
        init = Except.ok (some svc) →
      init = some svc ∨ (svc ∈ res ∧ svc.Name = rawName) := by
  intro res
  induction res with
  | nil =>
    intro init svc h
    simp only [List.foldlM_nil, pure, Except.pure, Except.ok.injEq] at h
    exact Or.inl h
  | cons s res ih =>
    intro init svc h
    rw [List.foldlM_cons] at h
    cases hp : s.Spec.Ports with
    | nil => simp only [hp] at h; cases h
    | cons p0 rest =>
      simp only [hp] at h
      by_cases hm : s.Name = rawName ∧ p0.Port = pb.Port ∧
          (match p0.Protocol with
            | some prot => prot
            | none => "TCP") = protOrTCP pb.Protocol
      · simp only [hm, and_self, if_true] at h
        rcases ih (some s) svc h with h1 | ⟨h1, h2⟩
        · cases h1
          exact Or.inr ⟨List.mem_cons_self _ _, hm.1⟩
        · exact Or.inr ⟨List.mem_cons_of_mem _ h1, h2⟩
      · simp only [hm, if_false] at h
        rcases ih init svc h with h1 | ⟨h1, h2⟩
        · exact Or.inl h1
        · exact Or.inr ⟨List.mem_cons_of_mem _ h1, h2⟩

theorem locateService_mem (res : List LiveService) (rawName : String) (pb : PortBinding)
    (svc : LiveService) (h : locateService res rawName pb = Except.ok (some svc)) :
    svc ∈ res ∧ svc.Name = rawName := by
  rcases locateService_fold_mem rawName pb res none svc h with h1 | h1
  · cases h1
  · exact h1

/-- The step on an Internal binding: no resource, and the maps of the container stored when a
Service is located. -/
theorem run_exposeBinding_internal (env : Env) (args : KomposeArgsRaw)
    (res : List LiveService) (i j : Nat) (rawName : String) (pb : PortBinding)
    (loc : Correlation) (kmp : Kompose) (hint : pb.ExposeType = ExposeInternal) :
    (exposeBinding env args res i rawName j pb loc).run.run kmp =
      match locateService res rawName pb with
      | Except.error failure => (Except.error failure, kmp)
      | Except.ok none => (Except.ok loc, kmp)
      | Except.ok (some svc) =>
        (Except.ok
            { loc with
              svcs := mapSet loc.svcs (portKey pb.Port (protOrTCP pb.Protocol)) svc,
              svcSpecs := mapSet loc.svcSpecs (portKey pb.Port (protOrTCP pb.Protocol))
                svc.Spec },
          { kmp with
            svcs := mapSet kmp.svcs rawName
              (mapSet loc.svcs (portKey pb.Port (protOrTCP pb.Protocol)) svc),
            svcSpecs := mapSet kmp.svcSpecs rawName
              (mapSet loc.svcSpecs (portKey pb.Port (protOrTCP pb.Protocol)) svc.Spec),
            ings := mapSet kmp.ings rawName loc.ings,
            ingSpecs := mapSet kmp.ingSpecs rawName loc.ingSpecs }) := by
  unfold exposeBinding
  cases hloc : locateService res rawName pb with
  | error failure => rfl
  | ok found =>
    cases found with
    | none => rfl
    | some svc =>
      simp only [hint]
      rfl

theorem mem_of_mem_mapEntries {β : Type} (m : List (String × β)) (e : String × β)
    (h : e ∈ mapEntries m) : e ∈ m := by
  induction m with
  | nil => simp [mapEntries] at h
  | cons x rest ih =>
    simp only [mapEntries, List.mem_cons, List.mem_filter] at h
    rcases h with h | ⟨h, _⟩
    · rw [h]; exact List.mem_cons_self _ _
    · exact List.mem_cons_of_mem _ (ih h)

theorem svcUrlOf_notExposed (hostname : String) (spec : ServiceSpec) (h : notExposed spec) :
    svcUrlOf hostname spec = Except.ok none := by
  unfold svcUrlOf
  cases ht : spec.ServiceType with
  | none => rfl
  | some typ =>
    have h1 : typ ≠ "NodePort" := fun he => h.1 (by rw [ht, he])
    have h2 : typ ≠ "LoadBalancer" := fun he => h.2 (by rw [ht, he])
    simp only [h1, h2, if_false]

theorem svcUrl_fold_notExposed (hostname : String) : ∀ (l : List (String × ServiceSpec))
    (acc : List (String × String)), (∀ e ∈ l, notExposed e.2) →
    l.foldlM (svcUrlStep hostname) acc = Except.ok acc := by
  intro l
  induction l with
  | nil => intro acc _; rfl
  | cons x rest ih =>
    intro acc h
    rw [List.foldlM_cons]
    have hstep : svcUrlStep hostname acc x = Except.ok acc := by
      unfold svcUrlStep
      rw [svcUrlOf_notExposed hostname x.2 (h x (List.mem_cons_self _ _))]
    rw [hstep]
    exact ih acc (fun e he => h e (List.mem_cons_of_mem _ he))

theorem svcUrls_notExposed (hostname : String) (specs : List (String × ServiceSpec))
    (h : ∀ e ∈ specs, notExposed e.2) : svcUrls hostname specs = Except.ok [] := by
  rw [svcUrls_eq]
  exact svcUrl_fold_notExposed hostname _ [] (fun e he => h e (mem_of_mem_mapEntries specs e he))

/-- The loop over the bindings of a container that are all Internal keeps the registered
resources and the policies, records no Ingress, and records only specs of Services of the
resources that carry the name of the container. -/
theorem exposeBindings_internal (env : Env) (args : KomposeArgsRaw) (res : List LiveService)
    (i : Nat) (c : String) (kmp0 : Kompose) (pbs : List PortBinding) :
    ∀ (j : Nat) (loc : Correlation) (kmp : Kompose),
      (∀ pb ∈ pbs, pb.ExposeType = ExposeInternal) →
      kmp.registered = kmp0.registered → kmp.ntps = kmp0.ntps → kmp.URLs = kmp0.URLs →
      loc.ingSpecs = [] →
      (∀ e ∈ loc.svcSpecs, ∃ s ∈ res, s.Name = c ∧ e.2 = s.Spec) →
      (mapGet kmp.ingSpecs c = mapGet kmp0.ingSpecs c ∨ mapGet kmp.ingSpecs c = some []) →
      (mapGet kmp.svcSpecs c = mapGet kmp0.svcSpecs c ∨
        ∃ specs, mapGet kmp.svcSpecs c = some specs ∧
          ∀ e ∈ specs, ∃ s ∈ res, s.Name = c ∧ e.2 = s.Spec) →
      ((exposeBindings env args res i c j pbs loc).run.run kmp).2.registered
          = kmp0.registered ∧
      ((exposeBindings env args res i c j pbs loc).run.run kmp).2.ntps = kmp0.ntps ∧
      ((exposeBindings env args res i c j pbs loc).run.run kmp).2.URLs = kmp0.URLs ∧
      (mapGet ((exposeBindings env args res i c j pbs loc).run.run kmp).2.ingSpecs c
          = mapGet kmp0.ingSpecs c ∨
        mapGet ((exposeBindings env args res i c j pbs loc).run.run kmp).2.ingSpecs c
          = some []) ∧
      (mapGet ((exposeBindings env args res i c j pbs loc).run.run kmp).2.svcSpecs c
          = mapGet kmp0.svcSpecs c ∨
        ∃ specs,
          mapGet ((exposeBindings env args res i c j pbs loc).run.run kmp).2.svcSpecs c
            = some specs ∧
          ∀ e ∈ specs, ∃ s ∈ res, s.Name = c ∧ e.2 = s.Spec) := by
  induction pbs with
  | nil =>
    intro j loc kmp _ h1 h2 h3 _ _ h6 h7
    simp only [exposeBindings, run_pure]
    exact ⟨h1, h2, h3, h6, h7⟩
  | cons pb rest ih =>
    intro j loc kmp hall h1 h2 h3 h4 h5 h6 h7
    have hint := hall pb (List.mem_cons_self _ _)
    have hrest : ∀ q ∈ rest, q.ExposeType = ExposeInternal :=
      fun q hq => hall q (List.mem_cons_of_mem _ hq)
    unfold exposeBindings
    rw [run_bind, run_exposeBinding_internal env args res i j c pb loc kmp hint]
    cases hloc : locateService res c pb with
    | error failure => exact ⟨h1, h2, h3, h6, h7⟩
    | ok found =>
      cases found with
      | none => exact ih (j + 1) loc kmp hrest h1 h2 h3 h4 h5 h6 h7
      | some svc =>
        obtain ⟨hmem, hname⟩ := locateService_mem res c pb svc hloc
        have hspecs : ∀ e ∈ mapSet loc.svcSpecs (portKey pb.Port (protOrTCP pb.Protocol))
            svc.Spec, ∃ s ∈ res, s.Name = c ∧ e.2 = s.Spec := by
          intro e he
          simp only [mapSet, List.mem_cons] at he
          rcases he with he | he
          · exact ⟨svc, hmem, hname, by rw [he]⟩
          · exact h5 e he
        refine ih (j + 1) _ _ hrest h1 h2 h3 h4 hspecs ?_ ?_
        · right
          simp [mapGet, mapSet, List.lookup_cons, h4]
        · right
          exact ⟨_, by simp [mapGet, mapSet, List.lookup_cons], hspecs⟩

/-- C21: for a container whose declared bindings are all Internal, the Service transform sets
the type of its Service to the empty string, the loop over its bindings registers no resource
and no policy, and, the cluster not exposing the Services of that name, endpoint aggregation
finds no endpoint: `svcUrls` returns the empty map on the recorded specs, no Ingress spec is
recorded, and the output step stores the empty map for the container. -/
theorem internal_only_no_endpoint (env : Env) (args : KomposeArgsRaw)
    (res : List LiveService) (i : Nat) (c : String) (kmp : Kompose) (props : ServiceProps)
    (hall : ∀ pb ∈ args.portsOf c, pb.ExposeType = ExposeInternal)
    (hcluster : ∀ s ∈ res, s.Name = c → notExposed s.Spec)
    (hfresh : mapGet kmp.svcSpecs c = none ∧ mapGet kmp.ingSpecs c = none) :
    serviceTransform args "kubernetes:core/v1:Service" ("kompose:default/" ++ c) props
      = some { props with SpecType := some "" } ∧
    ((exposeBindings env args res i c 0 (args.portsOf c) Correlation.empty).run.run kmp
      ).2.registered = kmp.registered ∧
    ((exposeBindings env args res i c 0 (args.portsOf c) Correlation.empty).run.run kmp
      ).2.ntps = kmp.ntps ∧
    svcUrls args.Hostname
        ((mapGet ((exposeBindings env args res i c 0 (args.portsOf c)
          Correlation.empty).run.run kmp).2.svcSpecs c).getD [])
      = Except.ok [] ∧
    ingUrls
        ((mapGet ((exposeBindings env args res i c 0 (args.portsOf c)
          Correlation.empty).run.run kmp).2.ingSpecs c).getD [])
      = [] ∧
    ((outputUrls args [c]).run.run
        ((exposeBindings env args res i c 0 (args.portsOf c) Correlation.empty).run.run kmp).2
      ).2.URLs = mapSet kmp.URLs c [] ∧
    (∀ k, mapGet ((mapGet ((outputUrls args [c]).run.run
        ((exposeBindings env args res i c 0 (args.portsOf c)
          Correlation.empty).run.run kmp).2).2.URLs c).getD []) k = none) := by
  obtain ⟨h1, h2, h3, h4, h5⟩ := exposeBindings_internal env args res i c kmp (args.portsOf c)
    0 Correlation.empty kmp hall rfl rfl rfl rfl (fun e he => by cases he) (Or.inl rfl)
    (Or.inl rfl)
  have hsvc : svcUrls args.Hostname
      ((mapGet ((exposeBindings env args res i c 0 (args.portsOf c)
        Correlation.empty).run.run kmp).2.svcSpecs c).getD []) = Except.ok [] := by
    apply svcUrls_notExposed
    intro e he
    rcases h5 with h5 | ⟨specs, h5, hspecs⟩
    · rw [h5, hfresh.1] at he
      cases he
    · rw [h5] at he
      obtain ⟨s, hs, hname, hspec⟩ := hspecs e he
      rw [hspec]
      exact hcluster s hs hname
  have hing : ingUrls
      ((mapGet ((exposeBindings env args res i c 0 (args.portsOf c)
        Correlation.empty).run.run kmp).2.ingSpecs c).getD []) = [] := by
    rcases h4 with h4 | h4
    · rw [h4, hfresh.2]; rfl
    · rw [h4]; rfl
  have hout : ((outputUrls args [c]).run.run
      ((exposeBindings env args res i c 0 (args.portsOf c) Correlation.empty).run.run kmp).2
        ).2.URLs = mapSet kmp.URLs c [] := by
    generalize hgen : ((exposeBindings env args res i c 0 (args.portsOf c)
      Correlation.empty).run.run kmp).2 = out at h3 hsvc hing
    have hget : (get : Step Kompose).run.run out = (Except.ok out, out) := rfl
    unfold outputUrls
    rw [run_bind, hget]
    simp only [hsvc]
    rw [run_bind, run_modify]
    simp only [outputUrls, run_pure, hing, merge, List.append_nil, h3]
  refine ⟨?_, h1, h2, hsvc, hing, hout, ?_⟩
  · have ht : serviceTypeOf (args.portsOf c) = ExposeInternal :=
      serviceTypeOf_none _ (fun pb hpb hr => by
        unfold retypes at hr
        rw [hall pb hpb] at hr
        rcases hr with hr | hr <;> cases hr)
    simp only [serviceTransform, if_true, trimPrefixOf_append, ht]
  · intro k
    rw [hout]
    simp [mapGet, mapSet, List.lookup_cons]

/-- C21, instance: on the cluster of the samples, container `node` with a single Internal
binding on 3000 gets no policy and the empty endpoint map. -/
theorem internal_only_no_endpoint_witness :
    (runNewKompose clusterEnv "kmp-test"
        (some (vipOnlyArgs [("node", [binding 3000 ExposeInternal])]))).2.URLs
      = [("node", [])] ∧
    ((exposeBindings clusterEnv (vipOnlyArgs [("node", [binding 3000 ExposeInternal])])
        (clusterEnv.cgResources (vipOnlyObjects.map (transformChild clusterEnv
          (vipOnlyArgs [("node", [binding 3000 ExposeInternal])]))))
        0 "node" 0 ((vipOnlyArgs [("node", [binding 3000 ExposeInternal])]).portsOf "node")
        Correlation.empty).run.run Kompose.init).2.ntps = Kompose.init.ntps :=
  ⟨by decide,
    (internal_only_no_endpoint clusterEnv
      (vipOnlyArgs [("node", [binding 3000 ExposeInternal])])
      (clusterEnv.cgResources (vipOnlyObjects.map (transformChild clusterEnv
        (vipOnlyArgs [("node", [binding 3000 ExposeInternal])]))))
      0 "node" Kompose.init { SpecType := none, Annotations := [] }
      (by decide)
      (by
        have h : ∀ s ∈ clusterEnv.cgResources (vipOnlyObjects.map (transformChild clusterEnv
            (vipOnlyArgs [("node", [binding 3000 ExposeInternal])]))),
            s.Spec.ServiceType = some "" := by decide
        intro s hs _
        exact ⟨by rw [h s hs]; decide, by rw [h s hs]; decide⟩)
      ⟨rfl, rfl⟩).2.2.1⟩

/-! ## Claims on the logical names -/

theorem dash_not_mem_nat (n : Nat) : '-' ∉ (toString n).data := by
  intro hm
  have h : (toString n).data = Nat.toDigits 10 n := rfl
  rw [h] at hm
  have := toDigits_mem n _ hm
  revert this; decide

theorem toString_nat_inj {n m : Nat} (h : toString n = toString m) : n = m := by
  have h' : (toString n).data = (toString m).data := by rw [h]
  exact toDigits_inj n m h'

/-- The logical name of a policy tells the container and the index apart. -/
theorem logicalName_inj {name1 name2 : String} {i1 i2 : Nat}
    (h : "emp-ntp-" ++ name1 ++ "-" ++ toString i1 = "emp-ntp-" ++ name2 ++ "-" ++ toString i2) :
    name1 = name2 ∧ i1 = i2 := by
  have h' := congrArg String.data h
  simp only [String.data_append, List.append_assoc] at h'
  simp only [List.cons_append, List.nil_append, List.cons.injEq, true_and] at h'
  have hrev := congrArg List.reverse h'
  simp only [List.reverse_append, List.reverse_cons, List.append_assoc, List.nil_append,
    List.cons_append, List.reverse_nil] at hrev
  have h1 : '-' ∉ (toString i1).data.reverse := by simpa using dash_not_mem_nat i1
  have h2 : '-' ∉ (toString i2).data.reverse := by simpa using dash_not_mem_nat i2
  obtain ⟨hi, hn⟩ := append_sep_inj h1 h2 hrev
  exact ⟨String.ext (List.reverse_injective hn),
    toString_nat_inj (String.ext (List.reverse_injective hi))⟩

set_option maxRecDepth 20000 in
/-- C23, the code at the failing input: container `node` binds port 3000 once as NodePort and
once through an Ingress. Validation accepts the map, both bindings are correlated to the
Service `node`, and both policies are registered under the logical name `emp-ntp-node-0`,
built from the index of the container; the two Ingress-side names, built from the index of
the binding, would differ (`kmp-ing-node-0`, `kmp-ing-node-1`). Policies of different
containers do get different logical names. -/
theorem policy_logical_names_collide :
    check clusterEnv.kompose
        (vipOnlyArgs [("node", [binding 3000 ExposeNodePort, binding 3000 ExposeIngress])])
      = [] ∧
    (runNewKompose clusterEnv "kmp-test"
        (some (vipOnlyArgs
          [("node", [binding 3000 ExposeNodePort, binding 3000 ExposeIngress])]))).1
      = Except.ok () ∧
    policyLogicalNames (runNewKompose clusterEnv "kmp-test"
        (some (vipOnlyArgs
          [("node", [binding 3000 ExposeNodePort, binding 3000 ExposeIngress])]))).2.registered
      = ["deny-all", "allow-same-namespace-ingress", "allow-same-namespace-egress",
          "allow-dns-udp", "allow-dns-tcp", "allow-internet-all",
          "emp-ntp-node-0", "emp-ntp-node-0"] ∧
    ¬ (policyLogicalNames (runNewKompose clusterEnv "kmp-test"
        (some (vipOnlyArgs
          [("node", [binding 3000 ExposeNodePort, binding 3000 ExposeIngress])]))).2.registered
        ).Nodup ∧
    (∀ (name1 name2 : String) (i1 i2 : Nat),
      "emp-ntp-" ++ name1 ++ "-" ++ toString i1 = "emp-ntp-" ++ name2 ++ "-" ++ toString i2 →
        name1 = name2 ∧ i1 = i2) := by
  refine ⟨by decide, rfl, by decide, by decide, fun _ _ _ _ h => logicalName_inj h⟩

/-! ## Claims on the name of an Ingress -/

set_option maxRecDepth 20000 in
/-- C14, as stated, fails. Container `node` is bound through an Ingress on port 3000 in the
test `vip-only-ingress` and on port 3001 in another deployment of the identity `a0b1c2d3` (its
Service carries the bound port first each time): the tuples differ in the port, and both runs
register an Ingress named `emp-ing-a0b1c2d3-node`. Likewise identity `a-b` with container `c` and identity `a` with
container `b-c` are different tuples, and both runs register an Ingress named
`emp-ing-a-b-c`. -/
theorem ingName_collision :
    (("a0b1c2d3", (none : Option String), "node", (3000 : Int), "TCP")
      ≠ ("a0b1c2d3", (none : Option String), "node", (3001 : Int), "TCP")) ∧
    (runNewKompose clusterEnv "kmp-test"
        (some (vipOnlyArgs [("node", [binding 3000 ExposeIngress])]))).1 = Except.ok () ∧
    ingressObjectNames (runNewKompose clusterEnv "kmp-test"
        (some (vipOnlyArgs [("node", [binding 3000 ExposeIngress])]))).2.registered
      = [some "emp-ing-a0b1c2d3-node"] ∧
    (runNewKompose (singleEnv "node" 3001) "kmp-test"
        (some (singleArgs "a0b1c2d3" "node" 3001))).1 = Except.ok () ∧
    ingressObjectNames (runNewKompose (singleEnv "node" 3001) "kmp-test"
        (some (singleArgs "a0b1c2d3" "node" 3001))).2.registered
      = [some "emp-ing-a0b1c2d3-node"] ∧
    (("a-b", (none : Option String), "c", (80 : Int), "TCP")
      ≠ ("a", (none : Option String), "b-c", (80 : Int), "TCP")) ∧
    (runNewKompose (singleEnv "c" 80) "kmp-test"
        (some (singleArgs "a-b" "c" 80))).1 = Except.ok () ∧
    ingressObjectNames (runNewKompose (singleEnv "c" 80) "kmp-test"
        (some (singleArgs "a-b" "c" 80))).2.registered
      = [some "emp-ing-a-b-c"] ∧
    (runNewKompose (singleEnv "b-c" 80) "kmp-test"
        (some (singleArgs "a" "b-c" 80))).1 = Except.ok () ∧
    ingressObjectNames (runNewKompose (singleEnv "b-c" 80) "kmp-test"
        (some (singleArgs "a" "b-c" 80))).2.registered
      = [some "emp-ing-a-b-c"] := by
  refine ⟨by decide, rfl, by decide, rfl, by decide, by decide, rfl, by decide, rfl,
    by decide⟩

/-- C14, amended: the Ingress name is a function of the tuple that reads only the identity and
the container name (the name registered for a binding is the same for every port, protocol,
Service and slug), and two tuples with the same label whose identities contain no `-` get
different names as soon as they differ in identity or container name. Two bindings of one
container that are both correlated to a Service carry the same port and the same protocol
(`"TCP"` when empty) when the Services of the ConfigGroup have distinct names: one container
gets at most one Ingress in a deployment. -/
theorem ingName_injective (label : Option String) (id1 id2 name1 name2 : String)
    (hid1 : '-' ∉ id1.data) (hid2 : '-' ∉ id2.data)
    (hne : id1 ≠ id2 ∨ name1 ≠ name2) :
    ingName id1 label name1 ≠ ingName id2 label name2 ∧
    (∀ (args : KomposeArgsRaw) (name : String) (svc1 svc2 : LiveService)
        (pb1 pb2 : PortBinding) (slug1 slug2 : String),
      (ingressArgs args name svc1 pb1 slug1).Metadata.Name
        = (ingressArgs args name svc2 pb2 slug2).Metadata.Name) ∧
    (∀ (res : List LiveService) (rawName : String) (pb1 pb2 : PortBinding)
        (svc1 svc2 : LiveService),
      (∀ s ∈ res, ∀ t ∈ res, s.Name = t.Name → s = t) →
      locateService res rawName pb1 = Except.ok (some svc1) →
      locateService res rawName pb2 = Except.ok (some svc2) →
      pb1.Port = pb2.Port ∧ protOrTCP pb1.Protocol = protOrTCP pb2.Protocol) := by
  refine ⟨?_, fun _ _ _ _ _ _ _ _ => rfl, ?_⟩
  · intro h
    rw [ingName_eq, ingName_eq] at h
    have h' := congrArg String.data h
    simp only [String.data_append, List.append_assoc] at h'
    simp only [List.cons_append, List.nil_append, List.cons.injEq, true_and] at h'
    obtain ⟨hid, hname⟩ := append_sep_inj hid1 hid2 h'
    rcases hne with hne | hne
    · exact hne (String.ext hid)
    · exact hne (String.ext hname)
  · intro res rawName pb1 pb2 svc1 svc2 hdistinct h1 h2
    obtain ⟨hm1, hn1⟩ := locateService_mem res rawName pb1 svc1 h1
    obtain ⟨hm2, hn2⟩ := locateService_mem res rawName pb2 svc2 h2
    have heq : svc1 = svc2 := hdistinct svc1 hm1 svc2 hm2 (hn1.trans hn2.symm)
    subst heq
    obtain ⟨p0, rest, hp, _, hport1, hprot1⟩ := locateService_some res rawName pb1 svc1 h1
    obtain ⟨q0, rest2, hq, _, hport2, hprot2⟩ := locateService_some res rawName pb2 svc1 h2
    rw [hp] at hq
    simp only [List.cons.injEq] at hq
    obtain ⟨hpq, _⟩ := hq
    subst hpq
    exact ⟨hport1.symm.trans hport2, hprot1.symm.trans hprot2⟩

/-- C14, instance: in the deployment `a0b1c2d3` of the test manifest the Ingresses of the
containers `node` and `mongo` get different names. -/
theorem ingName_injective_witness :
    ingName "a0b1c2d3" none "node" = "emp-ing-a0b1c2d3-node" ∧
    ingName "a0b1c2d3" none "mongo" = "emp-ing-a0b1c2d3-mongo" ∧
    ingName "a0b1c2d3" none "node" ≠ ingName "a0b1c2d3" none "mongo" :=
  ⟨by decide, by decide,
    (ingName_injective none "a0b1c2d3" "a0b1c2d3" "node" "mongo" (by decide) (by decide)
      (Or.inr (by decide))).1⟩

end Kubernetes
